import Mathlib

/-!
Verification development for the BetBog live-betting pipeline.

The Python source is shallowly embedded: machine floats are modelled as
exact rationals (or reals where the source applies a square root),
Python dicts keyed by strings become association lists, datetime values
become rational second counts passed explicitly, and code that raises an
exception is modelled with an explicit error result.  Division by zero in
the rational model is the Lean convention (result 0); every theorem that
depends on a division is guarded exactly as the source guards it.
-/

namespace BetBog

set_option maxRecDepth 8000

/- The core rational-number operations are irreducible by default, which
blocks elaborator-side evaluation of concrete instances; restore the
ordinary reducibility of these pure functions so that decidable facts
about concrete states can be settled by decide. -/
set_option allowUnsafeReducibility true
attribute [semireducible] Rat.add Rat.mul Rat.inv Rat.div Rat.sub Rat.neg
  Rat.blt Rat.floor Rat.normalize Rat.ofScientific

/-! ### Python rounding

The Python builtin round uses round-half-to-even.  `pyRound n q` models
round(q, n) on exact rationals; `pyRoundR` is the same on reals, used for
quantities that pass through math.sqrt. -/

/-- Round-half-to-even to an integer, as the Python builtin round does. -/
def roundHalfEven (q : ℚ) : ℤ :=
  if q - ⌊q⌋ < 1/2 then ⌊q⌋
  else if 1/2 < q - ⌊q⌋ then ⌊q⌋ + 1
  else if ⌊q⌋ % 2 = 0 then ⌊q⌋ else ⌊q⌋ + 1

/-- Model of Python round(q, n) on rationals. -/
def pyRound (n : ℕ) (q : ℚ) : ℚ :=
  (roundHalfEven (q * 10 ^ n) : ℚ) / 10 ^ n

/-- Round-half-to-even to an integer on reals. -/
noncomputable def roundHalfEvenR (x : ℝ) : ℤ :=
  if x - ⌊x⌋ < 1/2 then ⌊x⌋
  else if 1/2 < x - ⌊x⌋ then ⌊x⌋ + 1
  else if ⌊x⌋ % 2 = 0 then ⌊x⌋ else ⌊x⌋ + 1

/-- Model of Python round(x, n) on reals. -/
noncomputable def pyRoundR (n : ℕ) (x : ℝ) : ℝ :=
  (roundHalfEvenR (x * 10 ^ n) : ℝ) / 10 ^ n

/-! ### Association lists

Python dicts (insertion ordered) are modelled as association lists:
assignment `d[k] = v` is `setk`, lookup is `getk`, `del d[k]` / `pop`
is `popk`. -/

/-- Lookup in an association list (first entry with the key wins). -/
def getk {α : Type} (k : String) : List (String × α) → Option α
  | [] => none
  | (k₁, v₁) :: rest => if k₁ = k then some v₁ else getk k rest

/-- Dict assignment: replace the entry in place, or append a new one. -/
def setk {α : Type} (k : String) (v : α) : List (String × α) → List (String × α)
  | [] => [(k, v)]
  | (k₁, v₁) :: rest => if k₁ = k then (k, v) :: rest else (k₁, v₁) :: setk k v rest

/-- Dict deletion: drop every entry with the key. -/
def popk {α : Type} (k : String) (l : List (String × α)) : List (String × α) :=
  l.filter (fun p => decide (p.1 ≠ k))

/-- Delete each key of `ks` from the dict. -/
def popAll {α : Type} (ks : List String) (l : List (String × α)) : List (String × α) :=
  ks.foldl (fun acc k => popk k acc) l

/-- Apply `f k` to the value stored under each key `k ∈ ks` that is
present, in order; keys that are absent are left alone.  Models a Python
loop `for k in ks:` that mutates `d[k]` in place. -/
def updateEach {α : Type} (ks : List String) (f : String → α → α)
    (l : List (String × α)) : List (String × α) :=
  ks.foldl (fun acc k =>
    match getk k acc with
    | some v => setk k (f k v) acc
    | none => acc) l

/-! ### Bounded deques and Python slices -/

/-- The last `n` elements of a list (all of it when it is shorter). -/
def takeLast {α : Type} (n : ℕ) (l : List α) : List α :=
  l.drop (l.length - n)

/-- Appending to a `deque(maxlen = m)`: the oldest entries fall off. -/
def dequeAppend {α : Type} (maxlen : ℕ) (l : List α) (x : α) : List α :=
  takeLast maxlen (l ++ [x])

/-- The Python slice `l[-n:]`; for `n = 0` this is the whole list. -/
def pySliceLast {α : Type} (n : ℕ) (l : List α) : List α :=
  if n = 0 then l else takeLast n l

/-! ### Raw snapshot dictionaries

A raw stats dict as handed to the core: every field may be missing, and
each consumer substitutes its own default via dict.get.  Counting
statistics are naturals, possession is a rational percentage. -/

structure StatDict where
  minute : Option ℕ := none
  home_score : Option ℕ := none
  away_score : Option ℕ := none
  goals_home : Option ℕ := none
  goals_away : Option ℕ := none
  attacks_home : Option ℕ := none
  attacks_away : Option ℕ := none
  shots_home : Option ℕ := none
  shots_away : Option ℕ := none
  dangerous_attacks_home : Option ℕ := none
  dangerous_attacks_away : Option ℕ := none
  possession_home : Option ℚ := none
  possession_away : Option ℚ := none
  corners_home : Option ℕ := none
  corners_away : Option ℕ := none
deriving DecidableEq

/-! ### MetricsCalculator (src/metrics_calculator.py)

Derived-metric container and the calculation helpers.  Float fields are
exact rationals; the two helpers that call math.sqrt (wave amplitude and
the coefficient of variation feeding stability) live in the reals. -/

structure MatchMetrics where
  dxg_home : ℚ
  dxg_away : ℚ
  gradient_home : ℚ
  gradient_away : ℚ
  wave_amplitude : ℚ
  tiredness_home : ℚ
  tiredness_away : ℚ
  momentum_home : ℚ
  momentum_away : ℚ
  stability_home : ℚ
  stability_away : ℚ
  shots_per_attack_home : ℚ
  shots_per_attack_away : ℚ
  attacks_home : ℕ := 0
  attacks_away : ℕ := 0
  shots_home : ℕ := 0
  shots_away : ℕ := 0
  corners_home : ℕ := 0
  corners_away : ℕ := 0
  possession_home : ℚ := 50
  possession_away : ℚ := 50
  dangerous_home : ℕ := 0
  dangerous_away : ℕ := 0
  goals_home : ℕ := 0
  goals_away : ℕ := 0
deriving DecidableEq

/-- MetricsCalculator._calculate_shot_quality. -/
def calculate_shot_quality (shots attacks dangerous_attacks : ℕ) : ℚ :=
  if attacks = 0 then 0
  else
    let shot_conversion : ℚ := (shots : ℚ) / ((max attacks 1 : ℕ) : ℚ)
    let dangerFrac : ℚ := (dangerous_attacks : ℚ) / ((max attacks 1 : ℕ) : ℚ)
    let base_quality : ℚ := shot_conversion * 0.6 + dangerFrac * 0.4
    min (base_quality * (shots : ℚ) * 0.15) 3

/-- MetricsCalculator._get_time_modifier. -/
def get_time_modifier (minute : ℕ) : ℚ :=
  if minute < 15 then 0.8
  else if minute < 30 then 1.0
  else if minute < 60 then 1.1
  else if minute < 75 then 1.0
  else 1.2

/-- MetricsCalculator._calculate_dxg. -/
def calculate_dxg (shots_home shots_away attacks_home attacks_away
    dangerous_attacks_home dangerous_attacks_away : ℕ) (minute : ℕ) : ℚ × ℚ :=
  let shot_quality_home := calculate_shot_quality shots_home attacks_home dangerous_attacks_home
  let shot_quality_away := calculate_shot_quality shots_away attacks_away dangerous_attacks_away
  let time_modifier := get_time_modifier minute
  let pressure_home : ℚ := (shots_home : ℚ) / ((max minute 1 : ℕ) : ℚ) * 90
  let pressure_away : ℚ := (shots_away : ℚ) / ((max minute 1 : ℕ) : ℚ) * 90
  let dxg_home := shot_quality_home * time_modifier * (1 + pressure_home * 0.1)
  let dxg_away := shot_quality_away * time_modifier * (1 + pressure_away * 0.1)
  (pyRound 3 dxg_home, pyRound 3 dxg_away)

/-- MetricsCalculator._calculate_trend: ordinary-least-squares slope. -/
def calculate_trend (values : List ℚ) : ℚ :=
  if values.length < 2 then 0
  else
    let n : ℕ := values.length
    let x : List ℚ := (List.range n).map (fun i => (i : ℚ))
    let x_mean : ℚ := x.sum / (n : ℚ)
    let y_mean : ℚ := values.sum / (n : ℚ)
    let numerator : ℚ :=
      ((List.range n).map (fun i => (x.getD i 0 - x_mean) * (values.getD i 0 - y_mean))).sum
    let denominator : ℚ := ((List.range n).map (fun i => (x.getD i 0 - x_mean) ^ 2)).sum
    if denominator = 0 then 0 else numerator / denominator

/-- MetricsCalculator._calculate_gradient.  The window test
`minute - 10` is evaluated in the integers, as Python evaluates it. -/
def calculate_gradient (historical_stats : List StatDict) (minute : ℕ) : ℚ × ℚ :=
  if historical_stats.length < 3 then (0, 0)
  else
    let recent_stats := historical_stats.filter
      (fun s => decide ((minute : ℤ) - 10 ≤ ((s.minute.getD 0 : ℕ) : ℤ)))
    if recent_stats.length < 2 then (0, 0)
    else
      let home_shots := recent_stats.map (fun s => ((s.shots_home.getD 0 : ℕ) : ℚ))
      let away_shots := recent_stats.map (fun s => ((s.shots_away.getD 0 : ℕ) : ℚ))
      (pyRound 3 (calculate_trend home_shots), pyRound 3 (calculate_trend away_shots))

/-- MetricsCalculator._calculate_wave_amplitude (uses math.sqrt). -/
noncomputable def calculate_wave_amplitude (historical_stats : List StatDict) : ℝ :=
  if historical_stats.length < 5 then 0
  else
    let intensities : List ℚ := historical_stats.map (fun s =>
      ((s.shots_home.getD 0 + s.shots_away.getD 0 : ℕ) : ℚ) +
        ((s.attacks_home.getD 0 + s.attacks_away.getD 0 : ℕ) : ℚ) * 0.3)
    if 1 < intensities.length then
      let mean_intensity : ℚ := intensities.sum / (intensities.length : ℚ)
      let variance : ℚ :=
        (intensities.map (fun x => (x - mean_intensity) ^ 2)).sum / (intensities.length : ℚ)
      pyRoundR 3 (Real.sqrt (variance : ℝ))
    else 0

/-- MetricsCalculator._calculate_tiredness. -/
def calculate_tiredness (possession_home possession_away : ℚ)
    (attacks_home attacks_away : ℕ) (minute : ℕ) : ℚ × ℚ :=
  let activity_home : ℚ := (attacks_home : ℚ) / ((max minute 1 : ℕ) : ℚ) * 90
  let activity_away : ℚ := (attacks_away : ℚ) / ((max minute 1 : ℕ) : ℚ) * 90
  let workload_home := possession_home * activity_home / 100
  let workload_away := possession_away * activity_away / 100
  let time_factor : ℚ := min ((minute : ℚ) / 90) 1
  (pyRound 3 (workload_home * time_factor * 0.01),
   pyRound 3 (workload_away * time_factor * 0.01))

/-- MetricsCalculator._calculate_momentum. -/
def calculate_momentum (historical_stats : List StatDict) (minute : ℕ) : ℚ × ℚ :=
  if historical_stats.length < 4 then (0, 0)
  else
    let recent_window := historical_stats.filter
      (fun s => decide ((minute : ℤ) - 5 ≤ ((s.minute.getD 0 : ℕ) : ℤ)))
    if recent_window.length < 2 then (0, 0)
    else
      let first_period := recent_window.getD 0 {}
      let last_period := recent_window.getD (recent_window.length - 1) {}
      let attack_change_home : ℚ :=
        ((last_period.attacks_home.getD 0 : ℕ) : ℚ) - ((first_period.attacks_home.getD 0 : ℕ) : ℚ)
      let attack_change_away : ℚ :=
        ((last_period.attacks_away.getD 0 : ℕ) : ℚ) - ((first_period.attacks_away.getD 0 : ℕ) : ℚ)
      let time_diff : ℤ :=
        max (((last_period.minute.getD 0 : ℕ) : ℤ) - ((first_period.minute.getD 0 : ℕ) : ℤ)) 1
      (pyRound 3 (attack_change_home / (time_diff : ℚ)),
       pyRound 3 (attack_change_away / (time_diff : ℚ)))

/-- MetricsCalculator._coefficient_of_variation (uses math.sqrt). -/
noncomputable def coefficient_of_variation (values : List ℚ) : ℝ :=
  if values.length < 2 then 0
  else
    let mean_val : ℚ := values.sum / (values.length : ℚ)
    if mean_val = 0 then 0
    else
      let variance : ℚ := (values.map (fun x => (x - mean_val) ^ 2)).sum / (values.length : ℚ)
      Real.sqrt (variance : ℝ) / (mean_val : ℝ)

/-- MetricsCalculator._calculate_stability. -/
noncomputable def calculate_stability (historical_stats : List StatDict) : ℝ × ℝ :=
  if historical_stats.length < 3 then (1, 1)
  else
    let home_attacks := historical_stats.map (fun s => ((s.attacks_home.getD 0 : ℕ) : ℚ))
    let away_attacks := historical_stats.map (fun s => ((s.attacks_away.getD 0 : ℕ) : ℚ))
    let stability_home := max (1 - coefficient_of_variation home_attacks) 0
    let stability_away := max (1 - coefficient_of_variation away_attacks) 0
    (pyRoundR 3 stability_home, pyRoundR 3 stability_away)

/-- MetricsCalculator._calculate_shots_per_attack. -/
def calculate_shots_per_attack (shots attacks : ℕ) : ℚ :=
  if attacks = 0 then 0 else pyRound 3 ((shots : ℚ) / (attacks : ℚ))

/-- MetricsCalculator.calculate_metrics.  The body extracts every raw
field with a default and computes all derived metrics, but the final
MatchMetrics construction reads `stats.get(...)` while the parameter is
named current_stats: no local named stats exists, so every call raises
NameError before a MatchMetrics value can be produced.  The raise is
modelled as an error result. -/
noncomputable def calculate_metrics (current_stats : StatDict)
    (historical_stats : List StatDict) (minute : ℕ) : Except String MatchMetrics :=
  let shots_home := current_stats.shots_home.getD 0
  let shots_away := current_stats.shots_away.getD 0
  let attacks_home := current_stats.attacks_home.getD 0
  let attacks_away := current_stats.attacks_away.getD 0
  let possession_home := current_stats.possession_home.getD 50
  let possession_away := current_stats.possession_away.getD 50
  let dangerous_attacks_home := current_stats.dangerous_attacks_home.getD 0
  let dangerous_attacks_away := current_stats.dangerous_attacks_away.getD 0
  let _corners_home := current_stats.corners_home.getD 0
  let _corners_away := current_stats.corners_away.getD 0
  let _dxg := calculate_dxg shots_home shots_away attacks_home attacks_away
    dangerous_attacks_home dangerous_attacks_away minute
  let _gradient := calculate_gradient historical_stats minute
  let _wave := calculate_wave_amplitude historical_stats
  let _tired := calculate_tiredness possession_home possession_away
    attacks_home attacks_away minute
  let _mom := calculate_momentum historical_stats minute
  let _stab := calculate_stability historical_stats
  let _spa_home := calculate_shots_per_attack shots_home attacks_home
  let _spa_away := calculate_shots_per_attack shots_away attacks_away
  Except.error "NameError: name stats is not defined"

/-! ### TickAnalyzer (src/tick_analyzer.py)

Per-match tick history with sliding deltas.  Timestamps are rational
second counts; datetime.now() becomes an explicit `now` argument.  The
three per-match dicts of the analyzer are three association lists. -/

structure TAConfig where
  tick_interval : ℚ := 60
  tick_window_size : ℕ := 3
  max_ticks_history : ℕ := 50
deriving DecidableEq

structure TickData where
  timestamp : ℚ
  minute : ℕ
  home_score : ℕ
  away_score : ℕ
  attacks_home : ℕ
  attacks_away : ℕ
  shots_home : ℕ
  shots_away : ℕ
  dangerous_attacks_home : ℕ
  dangerous_attacks_away : ℕ
  possession_home : ℚ
  possession_away : ℚ
  corners_home : ℕ
  corners_away : ℕ
deriving DecidableEq

/-- TickData.get_metric_value: the metric_map dict with default 0.0. -/
def TickData.get_metric_value (t : TickData) (metric_name : String) : ℚ :=
  (getk metric_name
    [("total_attacks", ((t.attacks_home + t.attacks_away : ℕ) : ℚ)),
     ("total_shots", ((t.shots_home + t.shots_away : ℕ) : ℚ)),
     ("total_dangerous", ((t.dangerous_attacks_home + t.dangerous_attacks_away : ℕ) : ℚ)),
     ("total_corners", ((t.corners_home + t.corners_away : ℕ) : ℚ)),
     ("total_goals", ((t.home_score + t.away_score : ℕ) : ℚ)),
     ("attacks_home", (t.attacks_home : ℚ)),
     ("attacks_away", (t.attacks_away : ℚ)),
     ("shots_home", (t.shots_home : ℚ)),
     ("shots_away", (t.shots_away : ℚ)),
     ("possession_home", t.possession_home),
     ("possession_away", t.possession_away)]).getD 0

structure TickDelta where
  metric_name : String
  delta_value : ℚ
  tick_interval : ℚ
  timestamp : ℚ
deriving DecidableEq

structure MovingAverage where
  metric_name : String
  window_size : ℕ
  current_average : ℚ
  deltas_history : List ℚ
  confidence : ℚ
  trend : String
deriving DecidableEq

def tracked_metrics : List String :=
  ["total_attacks", "total_shots", "total_dangerous", "total_corners",
   "total_goals", "attacks_home", "attacks_away", "shots_home", "shots_away"]

structure AnalyzerState where
  cfg : TAConfig
  match_ticks : List (String × List TickData)
  match_deltas : List (String × List (String × List TickDelta))
  match_moving_averages : List (String × List (String × MovingAverage))
deriving DecidableEq

def initialAnalyzer (cfg : TAConfig) : AnalyzerState := ⟨cfg, [], [], []⟩

/-- TickAnalyzer.initialize_match (renamed: the Lean name cannot carry
the original). -/
def init_match (s : AnalyzerState) (match_id : String) : AnalyzerState :=
  if (getk match_id s.match_ticks).isSome then s
  else
    { s with
      match_ticks := setk match_id [] s.match_ticks
      match_deltas := setk match_id
        (tracked_metrics.map (fun m => (m, ([] : List TickDelta)))) s.match_deltas
      match_moving_averages := setk match_id
        (tracked_metrics.map (fun m =>
          (m, MovingAverage.mk m s.cfg.tick_window_size 0 [] 0 "stable")))
        s.match_moving_averages }

/-- The TickData built in add_tick from the raw dict, all fields
defaulted. -/
def tick_from_data (data : StatDict) (now : ℚ) : TickData :=
  ⟨now, data.minute.getD 0, data.home_score.getD 0, data.away_score.getD 0,
   data.attacks_home.getD 0, data.attacks_away.getD 0,
   data.shots_home.getD 0, data.shots_away.getD 0,
   data.dangerous_attacks_home.getD 0, data.dangerous_attacks_away.getD 0,
   data.possession_home.getD 50, data.possession_away.getD 50,
   data.corners_home.getD 0, data.corners_away.getD 0⟩

def dummyTick : TickData := ⟨0, 0, 0, 0, 0, 0, 0, 0, 0, 0, 0, 0, 0, 0⟩

/-- TickAnalyzer._calculate_deltas.  The source indexes the per-match
inner dicts directly; after initialization every tracked metric is
present, which `updateEach` relies on. -/
def calculate_deltas (s : AnalyzerState) (match_id : String)
    (current_tick : TickData) : AnalyzerState :=
  let ticks := (getk match_id s.match_ticks).getD []
  if ticks.length < 2 then s
  else
    let previous_tick := ticks.getD (ticks.length - 2) dummyTick
    let dm := (getk match_id s.match_deltas).getD []
    let dm2 := updateEach tracked_metrics
      (fun metric dq => dequeAppend (s.cfg.tick_window_size * 2) dq
        ⟨metric,
         current_tick.get_metric_value metric - previous_tick.get_metric_value metric,
         s.cfg.tick_interval, current_tick.timestamp⟩) dm
    { s with match_deltas := setk match_id dm2 s.match_deltas }

/-- The per-metric body of TickAnalyzer._update_moving_averages. -/
def update_one_average (window : ℕ) (deltas : List TickDelta)
    (ma : MovingAverage) : MovingAverage :=
  if 1 ≤ deltas.length then
    let delta_values := (pySliceLast window deltas).map TickDelta.delta_value
    let new_trend :=
      if 2 ≤ delta_values.length then
        let d_last := delta_values.getD (delta_values.length - 1) 0
        let d_prev := delta_values.getD (delta_values.length - 2) 0
        if d_prev < d_last then "rising"
        else if d_last < d_prev then "falling"
        else "stable"
      else if delta_values.length = 1 then
        let d0 := delta_values.getD 0 0
        if 0 < d0 then "rising" else if d0 < 0 then "falling" else "stable"
      else ma.trend
    { ma with
      current_average := delta_values.sum
      deltas_history := takeLast window delta_values
      confidence := min ((deltas.length : ℚ) / (window : ℚ)) 1
      trend := new_trend }
  else ma

/-- TickAnalyzer._update_moving_averages. -/
def update_moving_averages (s : AnalyzerState) (match_id : String) : AnalyzerState :=
  let dm := (getk match_id s.match_deltas).getD []
  let mam := (getk match_id s.match_moving_averages).getD []
  let mam2 := updateEach tracked_metrics
    (fun metric ma =>
      update_one_average s.cfg.tick_window_size ((getk metric dm).getD []) ma) mam
  { s with match_moving_averages := setk match_id mam2 s.match_moving_averages }

/-- TickAnalyzer.add_tick: returns the accepted flag and the new state. -/
def add_tick (s : AnalyzerState) (match_id : String) (data : StatDict)
    (now : ℚ) : Bool × AnalyzerState :=
  let s1 := init_match s match_id
  let tick := tick_from_data data now
  let ticks := (getk match_id s1.match_ticks).getD []
  let too_early :=
    match ticks.getLast? with
    | some last_tick => decide (now - last_tick.timestamp < s1.cfg.tick_interval)
    | none => false
  if too_early then (false, s1)
  else
    let ticks2 := dequeAppend s1.cfg.max_ticks_history ticks tick
    let s2 := { s1 with match_ticks := setk match_id ticks2 s1.match_ticks }
    if 2 ≤ ticks2.length then
      (true, update_moving_averages (calculate_deltas s2 match_id tick) match_id)
    else (true, s2)

/-- TickAnalyzer.cleanup_old_matches. -/
def cleanup_old_matches (s : AnalyzerState) (now : ℚ) (hours_old : ℚ) : AnalyzerState :=
  let cutoff_time := now - hours_old * 3600
  let matches_to_remove :=
    (s.match_ticks.filter (fun p =>
      match p.2.getLast? with
      | some t => decide (t.timestamp < cutoff_time)
      | none => false)).map Prod.fst
  { s with
    match_ticks := popAll matches_to_remove s.match_ticks
    match_deltas := popAll matches_to_remove s.match_deltas
    match_moving_averages := popAll matches_to_remove s.match_moving_averages }

/-- TickAnalyzer.clear_match_data. -/
def clear_match_data (s : AnalyzerState) (match_id : String) : AnalyzerState :=
  { s with
    match_ticks :=
      if (getk match_id s.match_ticks).isSome then popk match_id s.match_ticks
      else s.match_ticks
    match_deltas :=
      if (getk match_id s.match_deltas).isSome then popk match_id s.match_deltas
      else s.match_deltas
    match_moving_averages :=
      if (getk match_id s.match_moving_averages).isSome then
        popk match_id s.match_moving_averages
      else s.match_moving_averages }

/-- The public operations of the analyzer. -/
inductive TickOp where
  | initOp (match_id : String)
  | tickOp (match_id : String) (data : StatDict) (now : ℚ)
  | cleanupOp (now : ℚ) (hours_old : ℚ)
  | clearOp (match_id : String)
deriving DecidableEq

def applyOp (s : AnalyzerState) : TickOp → AnalyzerState
  | .initOp mid => init_match s mid
  | .tickOp mid data now => (add_tick s mid data now).2
  | .cleanupOp now h => cleanup_old_matches s now h
  | .clearOp mid => clear_match_data s mid

/-- The analyzer state after a sequence of public operations. -/
def runOps (cfg : TAConfig) (ops : List TickOp) : AnalyzerState :=
  ops.foldl applyOp (initialAnalyzer cfg)

/-! #### Momentum-shift detection -/

structure MomentumShift where
  shift_type : String
  metric : String
  strength : ℚ
  confidence : ℚ
deriving DecidableEq

def key_metrics : List String := ["total_attacks", "total_shots", "total_dangerous"]

/-- The per-metric body of TickAnalyzer.detect_momentum_shifts: the
confidence gate, the three-delta window, and the gain/loss tests. -/
def momentum_shift_for (metric : String) (ma : MovingAverage) : Option MomentumShift :=
  if ma.confidence < 0.7 then none
  else if 3 ≤ ma.deltas_history.length then
    let recent := ma.deltas_history
    let d1 := recent.getD (recent.length - 3) 0
    let d2 := recent.getD (recent.length - 2) 0
    let d3 := recent.getD (recent.length - 1) 0
    if d1 < 0 ∧ d2 < 0 ∧ d2 * 1.5 < d3 then
      some ⟨"momentum_gain", metric, |d3|, ma.confidence⟩
    else if 0 < d1 ∧ 0 < d2 ∧ d3 < d2 * 0.5 then
      some ⟨"momentum_loss", metric, |d3 - d2|, ma.confidence⟩
    else none
  else none

/-- TickAnalyzer.detect_momentum_shifts. -/
def detect_momentum_shifts (s : AnalyzerState) (match_id : String) : List MomentumShift :=
  match getk match_id s.match_moving_averages with
  | none => []
  | some mam =>
    key_metrics.foldl (fun acc metric =>
      match getk metric mam with
      | none => acc
      | some ma =>
        match momentum_shift_for metric ma with
        | some sh => acc ++ [sh]
        | none => acc) []

/-! ### BettingStrategies (src/strategies.py)

The strategy config is a dict of dicts of floats; a missing inner dict
behaves as empty, so it is modelled as a two-key partial lookup.  Values
in a trigger-metrics dict may be numbers or team-name strings. -/

def StratConfig : Type := String → String → Option ℚ

inductive TriggerVal where
  | num (q : ℚ)
  | str (s : String)
deriving DecidableEq

structure SignalResult where
  strategy_name : String
  signal_type : String
  confidence : ℚ
  prediction : String
  threshold_used : ℚ
  reasoning : String
  trigger_metrics : List (String × TriggerVal)
  recommended_odds : ℚ := 0
  stake_multiplier : ℚ := 1
deriving DecidableEq

/-- Python str.replace("_", " ") for a single-character pattern,
written character by character so it evaluates by reduction. -/
def pyReplaceUnderscores (s : String) : String :=
  String.mk (s.toList.map (fun c => if c = '_' then ' ' else c))

/-- Python str.title, character by character: a letter not preceded by
a letter is upcased. -/
def titleChars : Bool → List Char → List Char
  | _, [] => []
  | prevAlpha, c :: cs =>
    (if prevAlpha then c else c.toUpper) :: titleChars c.isAlpha cs

def pyTitle (s : String) : String := String.mk (titleChars false s.toList)

/-- BettingStrategies._get_time_confidence_factor. -/
def get_time_confidence_factor (minute : ℕ) : ℚ :=
  if minute < 20 then 0.7
  else if minute < 45 then 1.0
  else if minute < 70 then 0.9
  else 1.1

/-- BettingStrategies._calculate_recommended_odds.  In Python a zero
confidence would raise ZeroDivisionError and the strategy loop would
swallow the signal; the rational model returns 0 there and the signal is
dropped by the same confidence gate, so the observable emissions agree. -/
def calculate_recommended_odds (signal_type : String) (confidence : ℚ) : ℚ :=
  let _ := signal_type
  let implied_prob := confidence
  let fair_odds := 1 / implied_prob
  let margin : ℚ := if 0.8 < confidence then 0.15 else 0.1
  pyRound 2 (fair_odds * (1 + margin))

/-- BettingStrategies.analyze_over_2_5_goals (strategy key
"over_2_5_goals", config section "dxg_spike").  Log-string numeric
interpolation is elided from reasoning texts. -/
def analyze_over_2_5_goals (config : StratConfig) (metrics : MatchMetrics)
    (match_data : StatDict) (minute : ℕ) : Option SignalResult :=
  let _ := match_data
  let threshold := (config "dxg_spike" "threshold").getD 0.15
  let min_confidence := (config "dxg_spike" "min_confidence").getD 0.7
  let total_dxg := metrics.dxg_home + metrics.dxg_away
  let dxg_imbalance := |metrics.dxg_home - metrics.dxg_away|
  if threshold < total_dxg ∧ 20 < minute then
    let picked : Option (String × ℚ) :=
      if 1.5 < total_dxg ∧ minute < 70 then
        some ("over_2.5", min 0.9 (0.5 + (total_dxg - 1.5) * 0.3))
      else if 1.0 < total_dxg ∧ minute < 60 then
        some ("over_1.5", min 0.85 (0.5 + (total_dxg - 1.0) * 0.4))
      else if 0.8 < total_dxg ∧ 0.3 < dxg_imbalance then
        some ("btts", min 0.8 (0.5 + dxg_imbalance * 0.5))
      else none
    match picked with
    | none => none
    | some (signal_type, confidence) =>
      let time_factor := get_time_confidence_factor minute
      let momentum_factor := (|metrics.momentum_home| + |metrics.momentum_away|) * 0.1
      let final_confidence := confidence * time_factor * (1 + momentum_factor)
      if min_confidence ≤ final_confidence then
        some { strategy_name := "dxg_spike"
               signal_type := signal_type
               confidence := pyRound 3 final_confidence
               prediction := pyTitle (pyReplaceUnderscores signal_type)
               threshold_used := threshold
               reasoning := "dxG spike detected"
               trigger_metrics := [("total_dxg", .num total_dxg),
                 ("dxg_imbalance", .num dxg_imbalance), ("minute", .num (minute : ℚ))]
               recommended_odds := calculate_recommended_odds signal_type final_confidence
               stake_multiplier := min 2.0 (final_confidence + 0.5) }
      else none
  else none

/-- BettingStrategies.analyze_under_2_5_goals. -/
def analyze_under_2_5_goals (config : StratConfig) (metrics : MatchMetrics)
    (match_data : StatDict) (minute : ℕ) : Option SignalResult :=
  let _ := match_data
  let threshold := (config "under_2_5_goals" "threshold").getD 0.6
  let min_confidence := (config "under_2_5_goals" "min_confidence").getD 0.65
  let total_attacks : ℚ := ((metrics.attacks_home + metrics.attacks_away : ℕ) : ℚ)
  let total_shots : ℚ := ((metrics.shots_home + metrics.shots_away : ℕ) : ℚ)
  let total_dxg := metrics.dxg_home + metrics.dxg_away
  let attacking_factor : ℚ := 1 - min 1 ((total_attacks / 20 + total_shots / 15) / 2)
  let dxg_factor : ℚ := 1 - min 1 (total_dxg / 2.5)
  let confidence := attacking_factor * 0.6 + dxg_factor * 0.4
  if threshold ≤ confidence then
    let time_factor := get_time_confidence_factor minute
    let final_confidence := confidence * time_factor
    if min_confidence ≤ final_confidence then
      some { strategy_name := "under_2_5_goals"
             signal_type := "under_2_5"
             confidence := pyRound 3 final_confidence
             prediction := "Under 2.5 Goals"
             threshold_used := threshold
             reasoning := "Low attacking activity"
             trigger_metrics := [("total_attacks", .num total_attacks),
               ("total_shots", .num total_shots), ("total_dxg", .num total_dxg),
               ("minute", .num (minute : ℚ))]
             recommended_odds := calculate_recommended_odds "under_2_5" final_confidence
             stake_multiplier := min 1.8 (final_confidence + 0.3) }
    else none
  else none

/-- BettingStrategies.analyze_momentum_shift. -/
def analyze_momentum_shift (config : StratConfig) (metrics : MatchMetrics)
    (match_data : StatDict) (minute : ℕ) : Option SignalResult :=
  let threshold := (config "momentum_shift" "threshold").getD 0.25
  let stability_factor := (config "momentum_shift" "stability_factor").getD 0.8
  let momentum_home := metrics.momentum_home
  let momentum_away := metrics.momentum_away
  let momentum_diff := |momentum_home - momentum_away|
  if threshold < momentum_diff ∧ 15 < minute then
    let leading_team := if momentum_away < momentum_home then "home" else "away"
    let momentum_strength := max |momentum_home| |momentum_away|
    let base_confidence := min 0.9 (0.4 + momentum_strength * 0.3)
    let stability_avg := (metrics.stability_home + metrics.stability_away) / 2
    let confidence_multiplier : ℚ := if stability_avg < stability_factor then 1.2 else 1.0
    let final_confidence := base_confidence * confidence_multiplier
    let current_score := match_data.home_score.getD 0 + match_data.away_score.getD 0
    let picked : Option (String × String) :=
      if 0.5 < momentum_strength ∧ current_score = 0 then
        some ("first_goal", "First goal by " ++ leading_team ++ " team")
      else if 0.3 < momentum_strength then
        some ("next_goal", "Next goal by " ++ leading_team ++ " team")
      else none
    match picked with
    | none => none
    | some (signal_type, prediction) =>
      if 0.6 ≤ final_confidence then
        some { strategy_name := "momentum_shift"
               signal_type := signal_type
               confidence := pyRound 3 final_confidence
               prediction := prediction
               threshold_used := threshold
               reasoning := "Momentum shift"
               trigger_metrics := [("momentum_home", .num momentum_home),
                 ("momentum_away", .num momentum_away),
                 ("momentum_diff", .num momentum_diff),
                 ("leading_team", .str leading_team)]
               recommended_odds := calculate_recommended_odds signal_type final_confidence }
      else none
  else none

/-- The condition score accumulated by
BettingStrategies.analyze_next_goal_away before its threshold gate. -/
def next_goal_away_score (metrics : MatchMetrics) : ℚ :=
  let away_momentum := metrics.momentum_away
  let away_efficiency := metrics.shots_per_attack_away
  let momentum_diff := metrics.momentum_away - metrics.momentum_home
  let c0 : ℚ := 0
  let c1 := if 0.3 < away_momentum ∧ 0.15 < momentum_diff then c0 + 0.4 else c0
  let c2 := if 0.3 < away_efficiency then c1 + 0.3 else c1
  let c3 := if (metrics.attacks_home : ℚ) * 1.2 < (metrics.attacks_away : ℚ) then c2 + 0.2 else c2
  let c4 := if metrics.shots_home < metrics.shots_away then c3 + 0.1 else c3
  c4

/-- BettingStrategies.analyze_next_goal_away. -/
def analyze_next_goal_away (config : StratConfig) (metrics : MatchMetrics)
    (match_data : StatDict) (minute : ℕ) : Option SignalResult :=
  let _ := match_data
  let threshold := (config "next_goal_away" "threshold").getD 0.7
  let min_confidence := (config "next_goal_away" "min_confidence").getD 0.65
  let confidence := next_goal_away_score metrics
  if threshold ≤ confidence then
    let time_factor := get_time_confidence_factor minute
    let final_confidence := confidence * time_factor
    if min_confidence ≤ final_confidence then
      some { strategy_name := "next_goal_away"
             signal_type := "next_goal_away"
             confidence := pyRound 3 final_confidence
             prediction := "Next Goal: Away Team"
             threshold_used := threshold
             reasoning := "Away momentum"
             trigger_metrics := [("away_momentum", .num metrics.momentum_away),
               ("away_efficiency", .num metrics.shots_per_attack_away),
               ("momentum_diff", .num (metrics.momentum_away - metrics.momentum_home)),
               ("minute", .num (minute : ℚ))]
             recommended_odds := calculate_recommended_odds "next_goal_away" final_confidence
             stake_multiplier := min 1.5 (final_confidence + 0.2) }
    else none
  else none

/-- BettingStrategies.analyze_all_strategies: the four registered
strategies in registry order, keeping a result only when it exists and
its confidence exceeds the 0.5 floor. -/
def analyze_all_strategies (config : StratConfig) (current_metrics : MatchMetrics)
    (match_data : StatDict) (minute : ℕ) : List SignalResult :=
  ([analyze_over_2_5_goals config current_metrics match_data minute,
    analyze_under_2_5_goals config current_metrics match_data minute,
    analyze_momentum_shift config current_metrics match_data minute,
    analyze_next_goal_away config current_metrics match_data minute].filterMap id).filter
    (fun r => decide ((0.5 : ℚ) < r.confidence))

/-! ### SimpleOptimizer (src/simple_optimizer.py) -/

structure StrategyStats where
  win_rate : ℚ
  total_signals : ℕ
  avg_confidence_wins : ℚ
  avg_confidence_losses : ℚ
  last_optimized : String
deriving DecidableEq

/-- SimpleOptimizer.predict_signal_success.  The per-strategy stats
table is the association list `strategy_stats`; the explanation string
keeps only its static text. -/
def predict_signal_success (strategy_stats : List (String × StrategyStats))
    (strategy_name : String) (trigger_metrics : List (String × ℚ))
    (confidence : ℚ) (minute : ℕ) (threshold : ℚ) : ℚ × String :=
  let _ := trigger_metrics
  let _ := threshold
  match getk strategy_name strategy_stats with
  | none => (confidence, "No historical data available")
  | some stats =>
    let avg_win_confidence := stats.avg_confidence_wins
    let avg_loss_confidence := stats.avg_confidence_losses
    let confidence_multiplier : ℚ :=
      if avg_win_confidence ≤ confidence then 1.1
      else if confidence ≤ avg_loss_confidence then 0.9
      else 1.0
    let time_multiplier : ℚ :=
      if 30 ≤ minute ∧ minute ≤ 70 then 1.05
      else if minute < 20 ∨ 80 < minute then 0.95
      else 1.0
    let adjusted_confidence := confidence * confidence_multiplier * time_multiplier
    let final_confidence := max 0.1 (min 0.95 adjusted_confidence)
    (final_confidence, "Statistical prediction")

/-! ### ResultTracker (src/result_tracker.py)

Signals as stored rows; timestamps are rational second counts; the
external live-match lookup that drives an ordinary resolution pass is an
oracle argument, applied exactly to the rows the SQL filters select. -/

inductive SigResult where
  | pending
  | win
  | loss
  | push
deriving DecidableEq

structure Signal where
  id : ℕ
  signal_type : String
  trigger_minute : ℕ
  odds : Option ℚ
  result : SigResult
  profit_loss : ℚ
  stake : ℚ
  created_at : ℚ
  resolved_at : Option ℚ
deriving DecidableEq

/-- ResultTracker._calculate_profit_loss.  `signal.odds or 2.0` treats
both a missing and a zero odds as the 2.0 default. -/
def calculate_profit_loss (signal : Signal) (result : SigResult) : ℚ :=
  let stake := signal.stake
  let odds : ℚ :=
    match signal.odds with
    | none => 2.0
    | some o => if o = 0 then 2.0 else o
  let profit : ℚ :=
    match result with
    | .win => (odds - 1) * stake
    | .loss => -stake
    | .push => 0
    | .pending => 0
  pyRound 2 profit

/-- The per-row update of ResultTracker.force_resolve_old_signals: rows
are selected by `result == pending and created_at < cutoff` and set to a
forced loss. -/
def force_resolve_step (now hours_old : ℚ) (signal : Signal) : Signal :=
  let cutoff_time := now - hours_old * 3600
  if signal.result = .pending ∧ signal.created_at < cutoff_time then
    { signal with result := .loss, profit_loss := -signal.stake, resolved_at := some now }
  else signal

/-- ResultTracker.force_resolve_old_signals over the signals table
(default hours_old = 6). -/
def force_resolve_old_signals (now hours_old : ℚ) (db : List Signal) : List Signal :=
  db.map (force_resolve_step now hours_old)

/-- The per-row update of ResultTracker.check_pending_results: rows are
selected by `result == pending and created_at >= now - 6 hours`; the
oracle stands for the external match data deciding whether the signal
can be resolved and to what result. -/
def check_pending_step (now : ℚ) (oracle : Signal → Option SigResult)
    (signal : Signal) : Signal :=
  if signal.result = .pending ∧ now - 6 * 3600 ≤ signal.created_at then
    match oracle signal with
    | some r =>
      { signal with result := r, profit_loss := calculate_profit_loss signal r,
                    resolved_at := some now }
    | none => signal
  else signal

/-- ResultTracker.check_pending_results over the signals table. -/
def check_pending_results (now : ℚ) (oracle : Signal → Option SigResult)
    (db : List Signal) : List Signal :=
  db.map (check_pending_step now oracle)

/-! ### Invariant predicates for the analyzer state -/

def keysOf {α : Type} (l : List (String × α)) : List String := l.map Prod.fst

/-- Every tracked metric has an entry in the inner dict of every match. -/
def InnerFull {α : Type} (tbl : List (String × List (String × α))) : Prop :=
  ∀ mid inner, getk mid tbl = some inner →
    ∀ m ∈ tracked_metrics, (getk m inner).isSome

/-- The three per-match dicts have the same keys, in the same insertion
order, and their inner dicts carry every tracked metric. -/
def TablesSync (s : AnalyzerState) : Prop :=
  (keysOf s.match_ticks = keysOf s.match_deltas ∧
    keysOf s.match_ticks = keysOf s.match_moving_averages) ∧
  InnerFull s.match_deltas ∧ InnerFull s.match_moving_averages

/-- Every stored moving average equals the sum of the last window of the
stored deltas of its metric. -/
def AvgOk (s : AnalyzerState) : Prop :=
  ∀ mid mam, getk mid s.match_moving_averages = some mam →
    ∀ metric ∈ tracked_metrics, ∀ ma, getk metric mam = some ma →
      ma.current_average =
        ((pySliceLast s.cfg.tick_window_size
          ((getk metric ((getk mid s.match_deltas).getD [])).getD [])).map
            TickDelta.delta_value).sum

/-! ### Concrete inputs used by witnesses and counterexamples -/

def cfgNone : StratConfig := fun _ _ => none

def mOver : MatchMetrics where
  dxg_home := 3
  dxg_away := 0
  gradient_home := 0
  gradient_away := 0
  wave_amplitude := 0
  tiredness_home := 0
  tiredness_away := 0
  momentum_home := 0
  momentum_away := 0
  stability_home := 0
  stability_away := 0
  shots_per_attack_home := 0
  shots_per_attack_away := 0

def mZero : MatchMetrics where
  dxg_home := 0
  dxg_away := 0
  gradient_home := 0
  gradient_away := 0
  wave_amplitude := 0
  tiredness_home := 0
  tiredness_away := 0
  momentum_home := 0
  momentum_away := 0
  stability_home := 0
  stability_away := 0
  shots_per_attack_home := 0
  shots_per_attack_away := 0

/-- The signal analyze_over_2_5_goals emits for mOver at minute 30 with
an empty config. -/
def sigOver : SignalResult where
  strategy_name := "dxg_spike"
  signal_type := "over_2.5"
  confidence := 9/10
  prediction := "Over 2.5"
  threshold_used := 3/20
  reasoning := "dxG spike detected"
  trigger_metrics := [("total_dxg", .num 3), ("dxg_imbalance", .num 3), ("minute", .num 30)]
  recommended_odds := 32/25
  stake_multiplier := 7/5

def wTickA : StatDict := { minute := some 10, attacks_home := some 2 }

def wTickB : StatDict := { minute := some 11, attacks_home := some 5 }

def wOps : List TickOp := [.tickOp "m" wTickA 0, .tickOp "m" wTickB 100]

def wState : AnalyzerState := runOps {} wOps

def wMam : List (String × MovingAverage) :=
  (getk "m" wState.match_moving_averages).getD []

def wMA : MovingAverage := ⟨"total_attacks", 3, 3, [3], 1/3, "rising"⟩

def wTicks : List TickData := (getk "m" wState.match_ticks).getD []

def wLastTick : TickData := tick_from_data wTickB 100

/-- A moving average whose last three deltas are [-2, -2, -1]. -/
def maGainCex : MovingAverage := ⟨"total_attacks", 3, -5, [-2, -2, -1], 1, "falling"⟩

/-- A moving average whose last three deltas are [-2, -2, 4]. -/
def maGainPos : MovingAverage := ⟨"total_shots", 3, 0, [-2, -2, 4], 1, "stable"⟩

def sigC5 : Signal := ⟨1, "over_2.5", 30, some (5/2), .pending, 0, 201/200, 0, none⟩

def sigC5b : Signal := ⟨2, "over_2.5", 30, some 2, .pending, 0, 1, 0, none⟩

def sigC4 : Signal := ⟨3, "btts", 10, some 2, .pending, 0, 1, 0, none⟩

def statsW : StrategyStats := ⟨3/5, 40, 7/10, 1/2, "2026-01-01"⟩

/-! ## Lemmas about Python rounding -/

theorem roundHalfEven_nonneg {q : ℚ} (h : 0 ≤ q) : 0 ≤ roundHalfEven q := by
  have hf : (0 : ℤ) ≤ ⌊q⌋ := Int.floor_nonneg.mpr h
  unfold roundHalfEven
  split_ifs <;> omega

theorem roundHalfEven_le_int {q : ℚ} {n : ℤ} (h : q ≤ (n : ℚ)) : roundHalfEven q ≤ n := by
  have hfn : ⌊q⌋ ≤ n := by
    have := Int.floor_le_floor h
    simpa using this
  unfold roundHalfEven
  split_ifs with h1 h2 h3
  · exact hfn
  · have hlt : ⌊q⌋ < n := by
      have hge : (1 : ℚ)/2 ≤ q - ⌊q⌋ := not_lt.mp h1
      have : ((⌊q⌋ : ℤ) : ℚ) < (n : ℚ) := by linarith
      exact_mod_cast this
    omega
  · exact hfn
  · have hlt : ⌊q⌋ < n := by
      have hge : (1 : ℚ)/2 ≤ q - ⌊q⌋ := not_lt.mp h1
      have : ((⌊q⌋ : ℤ) : ℚ) < (n : ℚ) := by linarith
      exact_mod_cast this
    omega

theorem roundHalfEven_intCast (m : ℤ) : roundHalfEven (m : ℚ) = m := by
  unfold roundHalfEven
  rw [Int.floor_intCast]
  norm_num

theorem pyRound_nonneg (n : ℕ) {q : ℚ} (h : 0 ≤ q) : 0 ≤ pyRound n q := by
  unfold pyRound
  apply div_nonneg _ (by positivity)
  exact_mod_cast roundHalfEven_nonneg (by positivity)

theorem pyRound_eq_of_int (n : ℕ) (q : ℚ) (m : ℤ) (h : q * 10 ^ n = (m : ℚ)) :
    pyRound n q = q := by
  unfold pyRound
  rw [h, roundHalfEven_intCast, ← h]
  field_simp

theorem roundHalfEvenR_nonneg {x : ℝ} (h : 0 ≤ x) : 0 ≤ roundHalfEvenR x := by
  have hf : (0 : ℤ) ≤ ⌊x⌋ := Int.floor_nonneg.mpr h
  unfold roundHalfEvenR
  split_ifs <;> omega

theorem roundHalfEvenR_le_int {x : ℝ} {n : ℤ} (h : x ≤ (n : ℝ)) : roundHalfEvenR x ≤ n := by
  have hfn : ⌊x⌋ ≤ n := by
    have := Int.floor_le_floor h
    simpa using this
  unfold roundHalfEvenR
  split_ifs with h1 h2 h3
  · exact hfn
  · have hlt : ⌊x⌋ < n := by
      have hge : (1 : ℝ)/2 ≤ x - ⌊x⌋ := not_lt.mp h1
      have : ((⌊x⌋ : ℤ) : ℝ) < (n : ℝ) := by linarith
      exact_mod_cast this
    omega
  · exact hfn
  · have hlt : ⌊x⌋ < n := by
      have hge : (1 : ℝ)/2 ≤ x - ⌊x⌋ := not_lt.mp h1
      have : ((⌊x⌋ : ℤ) : ℝ) < (n : ℝ) := by linarith
      exact_mod_cast this
    omega

theorem pyRoundR_nonneg (n : ℕ) {x : ℝ} (h : 0 ≤ x) : 0 ≤ pyRoundR n x := by
  unfold pyRoundR
  apply div_nonneg _ (by positivity)
  exact_mod_cast roundHalfEvenR_nonneg (by positivity)

theorem pyRoundR_le_one (n : ℕ) {x : ℝ} (h : x ≤ 1) : pyRoundR n x ≤ 1 := by
  unfold pyRoundR
  rw [div_le_one (by positivity)]
  have hx : x * 10 ^ n ≤ (((10 : ℤ) ^ n : ℤ) : ℝ) := by
    push_cast
    calc x * 10 ^ n ≤ 1 * 10 ^ n := by
          apply mul_le_mul_of_nonneg_right h (by positivity)
      _ = 10 ^ n := by ring
  have := roundHalfEvenR_le_int hx
  calc ((roundHalfEvenR (x * 10 ^ n) : ℤ) : ℝ) ≤ (((10 : ℤ) ^ n : ℤ) : ℝ) := by
        exact_mod_cast this
    _ = 10 ^ n := by push_cast; ring

/-! ## Lemmas about association lists and bounded windows -/

theorem getk_nil {α : Type} (k : String) : getk k ([] : List (String × α)) = none := rfl

theorem getk_cons {α : Type} (k k₁ : String) (v₁ : α) (rest : List (String × α)) :
    getk k ((k₁, v₁) :: rest) = if k₁ = k then some v₁ else getk k rest := rfl

theorem setk_nil {α : Type} (k : String) (v : α) : setk k v ([] : List (String × α)) = [(k, v)] := rfl

theorem setk_cons {α : Type} (k k₁ : String) (v v₁ : α) (rest : List (String × α)) :
    setk k v ((k₁, v₁) :: rest) =
      if k₁ = k then (k, v) :: rest else (k₁, v₁) :: setk k v rest := rfl

theorem popk_nil {α : Type} (k : String) : popk k ([] : List (String × α)) = [] := rfl

theorem popk_cons {α : Type} (k k₁ : String) (v₁ : α) (rest : List (String × α)) :
    popk k ((k₁, v₁) :: rest) =
      if k₁ = k then popk k rest else (k₁, v₁) :: popk k rest := by
  by_cases h : k₁ = k <;> simp [popk, h]

theorem keysOf_nil {α : Type} : keysOf ([] : List (String × α)) = [] := rfl

theorem keysOf_cons {α : Type} (k₁ : String) (v₁ : α) (rest : List (String × α)) :
    keysOf ((k₁, v₁) :: rest) = k₁ :: keysOf rest := rfl

theorem getk_setk_self {α : Type} (k : String) (v : α) (l : List (String × α)) :
    getk k (setk k v l) = some v := by
  induction l with
  | nil => simp [setk_nil, getk_cons]
  | cons p rest ih =>
    obtain ⟨k₁, v₁⟩ := p
    by_cases h : k₁ = k
    · rw [setk_cons, if_pos h, getk_cons, if_pos rfl]
    · rw [setk_cons, if_neg h, getk_cons, if_neg h, ih]

theorem getk_setk_ne {α : Type} {k k₁ : String} (h : k₁ ≠ k) (v : α)
    (l : List (String × α)) : getk k₁ (setk k v l) = getk k₁ l := by
  have h' : ¬ k = k₁ := fun hk => h hk.symm
  induction l with
  | nil => rw [setk_nil, getk_cons, if_neg h', getk_nil]
  | cons p rest ih =>
    obtain ⟨k₂, v₂⟩ := p
    by_cases h₂ : k₂ = k
    · subst h₂
      rw [setk_cons, if_pos rfl, getk_cons, if_neg h', getk_cons, if_neg h']
    · rw [setk_cons, if_neg h₂, getk_cons, getk_cons, ih]

theorem getk_none_iff {α : Type} (k : String) (l : List (String × α)) :
    getk k l = none ↔ k ∉ keysOf l := by
  induction l with
  | nil => simp [getk_nil, keysOf_nil]
  | cons p rest ih =>
    obtain ⟨k₁, v₁⟩ := p
    rw [getk_cons, keysOf_cons]
    by_cases h : k₁ = k
    · subst h
      simp
    · have h' : ¬ k = k₁ := fun hk => h hk.symm
      simp [h, h', ih]

theorem getk_isSome_iff {α : Type} (k : String) (l : List (String × α)) :
    (getk k l).isSome ↔ k ∈ keysOf l := by
  rw [← not_iff_not]
  simp [Option.not_isSome_iff_eq_none, getk_none_iff]

theorem keysOf_setk_isSome {α : Type} {k : String} (v : α) {l : List (String × α)}
    (h : (getk k l).isSome) : keysOf (setk k v l) = keysOf l := by
  induction l with
  | nil => simp [getk_nil] at h
  | cons p rest ih =>
    obtain ⟨k₁, v₁⟩ := p
    by_cases hk : k₁ = k
    · rw [setk_cons, if_pos hk, keysOf_cons, keysOf_cons, hk]
    · rw [getk_cons, if_neg hk] at h
      rw [setk_cons, if_neg hk, keysOf_cons, keysOf_cons, ih h]

theorem keysOf_setk_none {α : Type} {k : String} (v : α) {l : List (String × α)}
    (h : getk k l = none) : keysOf (setk k v l) = keysOf l ++ [k] := by
  induction l with
  | nil => simp [setk_nil, keysOf]
  | cons p rest ih =>
    obtain ⟨k₁, v₁⟩ := p
    by_cases hk : k₁ = k
    · rw [getk_cons, if_pos hk] at h
      exact absurd h (by simp)
    · rw [getk_cons, if_neg hk] at h
      rw [setk_cons, if_neg hk, keysOf_cons, keysOf_cons, ih h, List.cons_append]

theorem getk_popk {α : Type} (k k₁ : String) (l : List (String × α)) :
    getk k₁ (popk k l) = if k₁ = k then none else getk k₁ l := by
  induction l with
  | nil => rw [popk_nil, getk_nil]; split <;> rfl
  | cons p rest ih =>
    obtain ⟨k₂, v₂⟩ := p
    by_cases h₂ : k₂ = k
    · subst h₂
      rw [popk_cons, if_pos rfl, ih]
      by_cases h₁ : k₁ = k₂
      · simp [h₁]
      · have h' : ¬ k₂ = k₁ := fun hk => h₁ hk.symm
        rw [if_neg h₁, if_neg h₁, getk_cons, if_neg h']
    · rw [popk_cons, if_neg h₂]
      by_cases h₃ : k₂ = k₁
      · subst h₃
        rw [getk_cons, if_pos rfl, if_neg (fun hk => h₂ hk), getk_cons, if_pos rfl]
      · rw [getk_cons, if_neg h₃, ih, getk_cons, if_neg h₃]

theorem keysOf_popk {α : Type} (k : String) (l : List (String × α)) :
    keysOf (popk k l) = (keysOf l).filter (fun x => decide (x ≠ k)) := by
  induction l with
  | nil => rfl
  | cons p rest ih =>
    obtain ⟨k₂, v₂⟩ := p
    by_cases h₂ : k₂ = k
    · rw [popk_cons, if_pos h₂, keysOf_cons, ih, List.filter_cons]
      simp [h₂]
    · rw [popk_cons, if_neg h₂, keysOf_cons, keysOf_cons, ih, List.filter_cons]
      simp [h₂]

theorem getk_popAll {α : Type} (ks : List String) (k : String) (l : List (String × α)) :
    getk k (popAll ks l) = if k ∈ ks then none else getk k l := by
  induction ks generalizing l with
  | nil => simp [popAll]
  | cons k₀ ks ih =>
    have step : popAll (k₀ :: ks) l = popAll ks (popk k₀ l) := rfl
    rw [step, ih]
    by_cases hk : k ∈ ks
    · simp [hk, List.mem_cons]
    · by_cases hk0 : k = k₀ <;> simp [hk, hk0, getk_popk, List.mem_cons]

theorem keysOf_popAll_congr {α β : Type} (ks : List String)
    {l₁ : List (String × α)} {l₂ : List (String × β)}
    (h : keysOf l₁ = keysOf l₂) :
    keysOf (popAll ks l₁) = keysOf (popAll ks l₂) := by
  induction ks generalizing l₁ l₂ with
  | nil => simpa [popAll] using h
  | cons k₀ ks ih =>
    have step₁ : popAll (k₀ :: ks) l₁ = popAll ks (popk k₀ l₁) := rfl
    have step₂ : popAll (k₀ :: ks) l₂ = popAll ks (popk k₀ l₂) := rfl
    rw [step₁, step₂]
    exact ih (by rw [keysOf_popk, keysOf_popk, h])

theorem getk_map_pair {α : Type} (g : String → α) (ks : List String) (k : String)
    (h : k ∈ ks) : getk k (ks.map (fun m => (m, g m))) = some (g k) := by
  induction ks with
  | nil => simp at h
  | cons k₀ ks ih =>
    by_cases hk : k₀ = k
    · subst hk
      simp [getk]
    · rcases List.mem_cons.mp h with h₀ | h₀
      · exact absurd h₀.symm hk
      · simp [getk, hk, ih h₀]

theorem keysOf_updateEach {α : Type} (ks : List String) (f : String → α → α)
    (l : List (String × α)) : keysOf (updateEach ks f l) = keysOf l := by
  induction ks generalizing l with
  | nil => simp [updateEach]
  | cons k₀ ks ih =>
    have step : updateEach (k₀ :: ks) f l =
        updateEach ks f (match getk k₀ l with
          | some v => setk k₀ (f k₀ v) l
          | none => l) := rfl
    rw [step]
    rcases h₀ : getk k₀ l with _ | v
    · simp [h₀, ih]
    · simp only [h₀]
      rw [ih, keysOf_setk_isSome _ (by simp [h₀])]

theorem getk_updateEach {α : Type} {ks : List String} (hnd : ks.Nodup)
    (f : String → α → α) (l : List (String × α)) (k : String) :
    getk k (updateEach ks f l) =
      if k ∈ ks then (getk k l).map (f k) else getk k l := by
  induction ks generalizing l with
  | nil => simp [updateEach]
  | cons k₀ ks ih =>
    obtain ⟨hk₀, hnd'⟩ := List.nodup_cons.mp hnd
    have step : updateEach (k₀ :: ks) f l =
        updateEach ks f (match getk k₀ l with
          | some v => setk k₀ (f k₀ v) l
          | none => l) := rfl
    rw [step]
    by_cases hk : k = k₀
    · subst hk
      rw [ih hnd', if_neg hk₀, if_pos (List.mem_cons_self _ _)]
      rcases h₀ : getk k l with _ | v
      · simp [h₀]
      · simp [h₀, getk_setk_self]
    · rw [ih hnd']
      have hstep : getk k (match getk k₀ l with
          | some v => setk k₀ (f k₀ v) l
          | none => l) = getk k l := by
        rcases h₀ : getk k₀ l with _ | v
        · simp
        · simp only
          exact getk_setk_ne hk _ _
      rw [hstep]
      by_cases hks : k ∈ ks <;> simp [hks, hk, List.mem_cons]

theorem takeLast_length {α : Type} (n : ℕ) (l : List α) :
    (takeLast n l).length = min n l.length := by
  simp [takeLast]
  omega

theorem takeLast_nil {α : Type} (n : ℕ) : takeLast n ([] : List α) = [] := by
  simp [takeLast]

theorem pySliceLast_nil {α : Type} (n : ℕ) : pySliceLast n ([] : List α) = [] := by
  unfold pySliceLast
  split <;> simp [takeLast_nil]

theorem takeLast_map {α β : Type} (g : α → β) (n : ℕ) (l : List α) :
    takeLast n (l.map g) = (takeLast n l).map g := by
  simp [takeLast, List.map_drop]

theorem pySliceLast_map {α β : Type} (g : α → β) (n : ℕ) (l : List α) :
    pySliceLast n (l.map g) = (pySliceLast n l).map g := by
  unfold pySliceLast
  split <;> simp [takeLast_map]

theorem pySliceLast_eq_takeLast {α : Type} {n : ℕ} (h : n ≠ 0) (l : List α) :
    pySliceLast n l = takeLast n l := by
  simp [pySliceLast, h]

theorem dequeAppend_length_pos {α : Type} {maxlen : ℕ} (h : 1 ≤ maxlen)
    (l : List α) (x : α) : 1 ≤ (dequeAppend maxlen l x).length := by
  unfold dequeAppend
  rw [takeLast_length]
  simp
  omega

/-! ## Small facts about the analyzer operations -/

theorem tracked_nodup : tracked_metrics.Nodup := by decide

theorem init_match_of_isSome {s : AnalyzerState} {mid : String}
    (h : (getk mid s.match_ticks).isSome) : init_match s mid = s := by
  unfold init_match
  rw [if_pos h]

theorem cfg_init_match (s : AnalyzerState) (mid : String) :
    (init_match s mid).cfg = s.cfg := by
  unfold init_match
  split <;> rfl

theorem init_match_isSome (s : AnalyzerState) (mid : String) :
    (getk mid (init_match s mid).match_ticks).isSome := by
  by_cases h : (getk mid s.match_ticks).isSome
  · rw [init_match_of_isSome h]; exact h
  · unfold init_match
    rw [if_neg h]
    simp [getk_setk_self]

theorem cfg_calculate_deltas (s : AnalyzerState) (mid : String) (t : TickData) :
    (calculate_deltas s mid t).cfg = s.cfg := by
  unfold calculate_deltas
  dsimp only
  split <;> rfl

theorem cfg_update_moving_averages (s : AnalyzerState) (mid : String) :
    (update_moving_averages s mid).cfg = s.cfg := rfl

theorem cfg_add_tick (s : AnalyzerState) (mid : String) (data : StatDict) (now : ℚ) :
    ((add_tick s mid data now).2).cfg = s.cfg := by
  unfold add_tick
  dsimp only
  split
  · exact cfg_init_match s mid
  · split
    · rw [cfg_update_moving_averages, cfg_calculate_deltas]
      exact cfg_init_match s mid
    · exact cfg_init_match s mid

theorem cfg_cleanup_old_matches (s : AnalyzerState) (now hours_old : ℚ) :
    (cleanup_old_matches s now hours_old).cfg = s.cfg := rfl

theorem cfg_clear_match_data (s : AnalyzerState) (mid : String) :
    (clear_match_data s mid).cfg = s.cfg := rfl

theorem cfg_applyOp (s : AnalyzerState) (op : TickOp) : (applyOp s op).cfg = s.cfg := by
  cases op with
  | initOp mid => exact cfg_init_match s mid
  | tickOp mid data now => exact cfg_add_tick s mid data now
  | cleanupOp now h => exact cfg_cleanup_old_matches s now h
  | clearOp mid => exact cfg_clear_match_data s mid

theorem cfg_foldl (ops : List TickOp) : ∀ s : AnalyzerState,
    (ops.foldl applyOp s).cfg = s.cfg := by
  induction ops with
  | nil => intro s; rfl
  | cons op ops ih =>
    intro s
    rw [List.foldl_cons, ih, cfg_applyOp]

theorem cfg_runOps (cfg : TAConfig) (ops : List TickOp) : (runOps cfg ops).cfg = cfg :=
  cfg_foldl ops (initialAnalyzer cfg)

theorem update_one_average_of_empty (W : ℕ) (ma : MovingAverage) :
    update_one_average W [] ma = ma := by
  unfold update_one_average
  simp

theorem update_one_average_avg {W : ℕ} {dq : List TickDelta} (h : 1 ≤ dq.length)
    (ma : MovingAverage) :
    (update_one_average W dq ma).current_average =
      ((pySliceLast W dq).map TickDelta.delta_value).sum := by
  unfold update_one_average
  rw [if_pos h]

/-! ## Preservation of the table-sync invariant -/

theorem tablesSync_init_match {s : AnalyzerState} (h : TablesSync s) (mid : String) :
    TablesSync (init_match s mid) := by
  obtain ⟨⟨hkd, hkm⟩, hfd, hfm⟩ := h
  by_cases hp : (getk mid s.match_ticks).isSome
  · rw [init_match_of_isSome hp]
    exact ⟨⟨hkd, hkm⟩, hfd, hfm⟩
  · have htn : getk mid s.match_ticks = none := Option.not_isSome_iff_eq_none.mp hp
    have hdn : getk mid s.match_deltas = none := by
      rw [getk_none_iff] at htn ⊢
      rw [← hkd]; exact htn
    have hmn : getk mid s.match_moving_averages = none := by
      rw [getk_none_iff] at htn ⊢
      rw [← hkm]; exact htn
    unfold init_match
    rw [if_neg hp]
    refine ⟨⟨?_, ?_⟩, ?_, ?_⟩
    · show keysOf (setk mid [] s.match_ticks) =
        keysOf (setk mid _ s.match_deltas)
      rw [keysOf_setk_none _ htn, keysOf_setk_none _ hdn, hkd]
    · show keysOf (setk mid [] s.match_ticks) =
        keysOf (setk mid _ s.match_moving_averages)
      rw [keysOf_setk_none _ htn, keysOf_setk_none _ hmn, hkm]
    · intro mid2 inner hget m hm
      by_cases he : mid2 = mid
      · subst he
        rw [getk_setk_self] at hget
        cases hget
        rw [getk_map_pair _ _ _ hm]
        rfl
      · rw [getk_setk_ne he _ _] at hget
        exact hfd _ _ hget m hm
    · intro mid2 inner hget m hm
      by_cases he : mid2 = mid
      · subst he
        rw [getk_setk_self] at hget
        cases hget
        rw [getk_map_pair _ _ _ hm]
        rfl
      · rw [getk_setk_ne he _ _] at hget
        exact hfm _ _ hget m hm

theorem tablesSync_calculate_deltas {s : AnalyzerState} (h : TablesSync s)
    (mid : String) (tick : TickData) : TablesSync (calculate_deltas s mid tick) := by
  obtain ⟨⟨hkd, hkm⟩, hfd, hfm⟩ := h
  unfold calculate_deltas
  dsimp only
  split
  · exact ⟨⟨hkd, hkm⟩, hfd, hfm⟩
  · rename_i hlen
    have hticks : (getk mid s.match_ticks).isSome := by
      rcases hg : getk mid s.match_ticks with _ | ticks0
    -- absent would mean the defaulted list is empty, contradicting the length guard
      · rw [hg] at hlen
        simp at hlen
      · simp
    have hpd : (getk mid s.match_deltas).isSome := by
      rw [getk_isSome_iff] at hticks ⊢
      rw [← hkd]; exact hticks
    obtain ⟨dm', hdm'⟩ := Option.isSome_iff_exists.mp hpd
    refine ⟨⟨?_, hkm⟩, ?_, hfm⟩
    · show keysOf s.match_ticks = keysOf (setk mid _ s.match_deltas)
      rw [keysOf_setk_isSome _ hpd, hkd]
    · intro mid2 inner hget m hm
      by_cases he : mid2 = mid
      · subst he
        rw [getk_setk_self] at hget
        cases hget
        rw [getk_updateEach tracked_nodup, if_pos hm, hdm']
        have := hfd _ _ hdm' m hm
        simpa using this
      · rw [getk_setk_ne he _ _] at hget
        exact hfd _ _ hget m hm

theorem tablesSync_update_moving_averages {s : AnalyzerState} (h : TablesSync s)
    {mid : String} (hpm : (getk mid s.match_moving_averages).isSome) :
    TablesSync (update_moving_averages s mid) := by
  obtain ⟨⟨hkd, hkm⟩, hfd, hfm⟩ := h
  obtain ⟨mam', hmam'⟩ := Option.isSome_iff_exists.mp hpm
  unfold update_moving_averages
  dsimp only
  refine ⟨⟨hkd, ?_⟩, hfd, ?_⟩
  · show keysOf s.match_ticks = keysOf (setk mid _ s.match_moving_averages)
    rw [keysOf_setk_isSome _ hpm, hkm]
  · intro mid2 inner hget m hm
    by_cases he : mid2 = mid
    · subst he
      rw [getk_setk_self] at hget
      cases hget
      rw [getk_updateEach tracked_nodup, if_pos hm, hmam']
      have := hfm _ _ hmam' m hm
      simpa using this
    · rw [getk_setk_ne he _ _] at hget
      exact hfm _ _ hget m hm

theorem tablesSync_add_tick {s : AnalyzerState} (h : TablesSync s)
    (mid : String) (data : StatDict) (now : ℚ) :
    TablesSync ((add_tick s mid data now).2) := by
  have h1 : TablesSync (init_match s mid) := tablesSync_init_match h mid
  have hp : (getk mid (init_match s mid).match_ticks).isSome := init_match_isSome s mid
  unfold add_tick
  dsimp only
  split
  · exact h1
  · obtain ⟨⟨hkd, hkm⟩, hfd, hfm⟩ := h1
    have h2 : TablesSync
        { init_match s mid with
          match_ticks := setk mid
            (dequeAppend (init_match s mid).cfg.max_ticks_history
              ((getk mid (init_match s mid).match_ticks).getD [])
              (tick_from_data data now))
            (init_match s mid).match_ticks } := by
      refine ⟨⟨?_, ?_⟩, hfd, hfm⟩
      · show keysOf (setk mid _ (init_match s mid).match_ticks) = _
        rw [keysOf_setk_isSome _ hp, hkd]
      · show keysOf (setk mid _ (init_match s mid).match_ticks) = _
        rw [keysOf_setk_isSome _ hp, hkm]
    split
    · have hpm2 : (getk mid
          (calculate_deltas
            { init_match s mid with
              match_ticks := setk mid
                (dequeAppend (init_match s mid).cfg.max_ticks_history
                  ((getk mid (init_match s mid).match_ticks).getD [])
                  (tick_from_data data now))
                (init_match s mid).match_ticks }
            mid (tick_from_data data now)).match_moving_averages).isSome := by
        have h3 := tablesSync_calculate_deltas h2 mid (tick_from_data data now)
        obtain ⟨⟨_, hkm3⟩, _, _⟩ := h3
        rw [getk_isSome_iff, ← hkm3]
        unfold calculate_deltas
        dsimp only
        split
        · show mid ∈ keysOf (setk mid _ (init_match s mid).match_ticks)
          rw [keysOf_setk_isSome _ hp]
          rw [← getk_isSome_iff]
          exact hp
        · show mid ∈ keysOf (setk mid _ (init_match s mid).match_ticks)
          rw [keysOf_setk_isSome _ hp]
          rw [← getk_isSome_iff]
          exact hp
      exact tablesSync_update_moving_averages
        (tablesSync_calculate_deltas h2 mid (tick_from_data data now)) hpm2
    · exact h2

theorem tablesSync_cleanup_old_matches {s : AnalyzerState} (h : TablesSync s)
    (now hours_old : ℚ) : TablesSync (cleanup_old_matches s now hours_old) := by
  obtain ⟨⟨hkd, hkm⟩, hfd, hfm⟩ := h
  unfold cleanup_old_matches
  dsimp only
  refine ⟨⟨keysOf_popAll_congr _ hkd, keysOf_popAll_congr _ hkm⟩, ?_, ?_⟩
  · intro mid inner hget m hm
    rw [getk_popAll] at hget
    split at hget
    · cases hget
    · exact hfd _ _ hget m hm
  · intro mid inner hget m hm
    rw [getk_popAll] at hget
    split at hget
    · cases hget
    · exact hfm _ _ hget m hm

theorem tablesSync_clear_match_data {s : AnalyzerState} (h : TablesSync s)
    (mid : String) : TablesSync (clear_match_data s mid) := by
  obtain ⟨⟨hkd, hkm⟩, hfd, hfm⟩ := h
  have hiff_d : (getk mid s.match_deltas).isSome ↔ (getk mid s.match_ticks).isSome := by
    rw [getk_isSome_iff, getk_isSome_iff, hkd]
  have hiff_m : (getk mid s.match_moving_averages).isSome ↔
      (getk mid s.match_ticks).isSome := by
    rw [getk_isSome_iff, getk_isSome_iff, hkm]
  unfold clear_match_data
  by_cases hp : (getk mid s.match_ticks).isSome
  · have hd : (getk mid s.match_deltas).isSome := hiff_d.mpr hp
    have hm0 : (getk mid s.match_moving_averages).isSome := hiff_m.mpr hp
    rw [if_pos hp, if_pos hd, if_pos hm0]
    refine ⟨⟨?_, ?_⟩, ?_, ?_⟩
    · show keysOf (popk mid s.match_ticks) = keysOf (popk mid s.match_deltas)
      rw [keysOf_popk, keysOf_popk, hkd]
    · show keysOf (popk mid s.match_ticks) = keysOf (popk mid s.match_moving_averages)
      rw [keysOf_popk, keysOf_popk, hkm]
    · intro mid2 inner hget m hmm
      rw [getk_popk] at hget
      split at hget
      · cases hget
      · exact hfd _ _ hget m hmm
    · intro mid2 inner hget m hmm
      rw [getk_popk] at hget
      split at hget
      · cases hget
      · exact hfm _ _ hget m hmm
  · have hd : ¬ (getk mid s.match_deltas).isSome := fun hc => hp (hiff_d.mp hc)
    have hm0 : ¬ (getk mid s.match_moving_averages).isSome := fun hc => hp (hiff_m.mp hc)
    rw [if_neg hp, if_neg hd, if_neg hm0]
    exact ⟨⟨hkd, hkm⟩, hfd, hfm⟩

theorem tablesSync_applyOp {s : AnalyzerState} (h : TablesSync s) (op : TickOp) :
    TablesSync (applyOp s op) := by
  cases op with
  | initOp mid => exact tablesSync_init_match h mid
  | tickOp mid data now => exact tablesSync_add_tick h mid data now
  | cleanupOp now hrs => exact tablesSync_cleanup_old_matches h now hrs
  | clearOp mid => exact tablesSync_clear_match_data h mid

theorem tablesSync_foldl (ops : List TickOp) : ∀ s : AnalyzerState,
    TablesSync s → TablesSync (ops.foldl applyOp s) := by
  induction ops with
  | nil => intro s h; exact h
  | cons op ops ih =>
    intro s h
    rw [List.foldl_cons]
    exact ih _ (tablesSync_applyOp h op)

theorem tablesSync_initial (cfg : TAConfig) : TablesSync (initialAnalyzer cfg) := by
  refine ⟨⟨rfl, rfl⟩, ?_, ?_⟩ <;>
    · intro mid inner hget m hm
      simp [initialAnalyzer, getk_nil] at hget

/-! ## Preservation of the moving-average invariant -/

theorem avgOk_initial (cfg : TAConfig) : AvgOk (initialAnalyzer cfg) := by
  intro mid mam hget
  simp [initialAnalyzer, getk_nil] at hget

theorem avgOk_init_match {s : AnalyzerState} (hsync : TablesSync s) (havg : AvgOk s)
    (mid : String) : AvgOk (init_match s mid) := by
  obtain ⟨⟨hkd, hkm⟩, _, _⟩ := hsync
  by_cases hp : (getk mid s.match_ticks).isSome
  · rw [init_match_of_isSome hp]
    exact havg
  · unfold init_match
    rw [if_neg hp]
    intro mid2 mam hget metric hm ma hma
    by_cases he : mid2 = mid
    · subst he
      rw [show getk mid2 (setk mid2
            (tracked_metrics.map (fun m =>
              (m, MovingAverage.mk m s.cfg.tick_window_size 0 [] 0 "stable")))
            s.match_moving_averages) = _ from getk_setk_self _ _ _] at hget
      cases hget
      rw [getk_map_pair _ _ _ hm] at hma
      cases hma
      show (0 : ℚ) = _
      rw [show getk mid2 (setk mid2
            (tracked_metrics.map (fun m => (m, ([] : List TickDelta))))
            s.match_deltas) = _ from getk_setk_self _ _ _]
      rw [show (some (tracked_metrics.map (fun m => (m, ([] : List TickDelta))))).getD [] =
            tracked_metrics.map (fun m => (m, ([] : List TickDelta))) from rfl]
      rw [getk_map_pair _ _ _ hm]
      simp [pySliceLast_nil]
    · rw [getk_setk_ne he _ _] at hget
      have := havg mid2 mam hget metric hm ma hma
      rw [this]
      rw [getk_setk_ne he _ _]

theorem avgOk_update_moving_averages {s : AnalyzerState} (havg : AvgOk s)
    (mid : String) : AvgOk (update_moving_averages s mid) := by
  unfold update_moving_averages
  intro mid2 mam' hget metric hm ma' hma'
  dsimp only at hget hma' ⊢
  by_cases he : mid2 = mid
  · subst he
    rw [getk_setk_self] at hget
    cases hget
    rw [getk_updateEach tracked_nodup, if_pos hm] at hma'
    rcases hmam : getk metric ((getk mid2 s.match_moving_averages).getD []) with _ | ma
    · rw [hmam] at hma'
      cases hma'
    · rw [hmam] at hma'
      simp only [Option.map_some'] at hma'
      cases hma'
      set dq := (getk metric ((getk mid2 s.match_deltas).getD [])).getD [] with hdq
      by_cases hq : 1 ≤ dq.length
      · rw [update_one_average_avg hq]
      · have hnil : dq = [] := List.eq_nil_of_length_eq_zero (by omega)
        rw [hnil, update_one_average_of_empty]
        rcases hmas : getk mid2 s.match_moving_averages with _ | mam₀
        · rw [hmas] at hmam
          rw [show (Option.getD (none : Option (List (String × MovingAverage))) []) = []
              from rfl] at hmam
          rw [getk_nil] at hmam
          cases hmam
        · rw [hmas] at hmam
          rw [show (Option.getD (some mam₀) []) = mam₀ from rfl] at hmam
          have h := havg mid2 mam₀ hmas metric hm ma hmam
          rw [← hdq, hnil] at h
          exact h
  · rw [getk_setk_ne he _ _] at hget
    exact havg mid2 mam' hget metric hm ma' hma'

theorem avgOk_calc_update {s : AnalyzerState} (hsync : TablesSync s) (havg : AvgOk s)
    (hW : 1 ≤ s.cfg.tick_window_size) (mid : String) (tick : TickData) :
    AvgOk (update_moving_averages (calculate_deltas s mid tick) mid) := by
  obtain ⟨⟨hkd, hkm⟩, hfd, hfm⟩ := hsync
  unfold calculate_deltas
  dsimp only
  split
  · exact avgOk_update_moving_averages havg mid
  · rename_i hlen
    have hticks : (getk mid s.match_ticks).isSome := by
      rcases hg : getk mid s.match_ticks with _ | ticks0
      · rw [hg] at hlen
        simp at hlen
      · simp
    have hpd : (getk mid s.match_deltas).isSome := by
      rw [getk_isSome_iff] at hticks ⊢
      rw [← hkd]; exact hticks
    have hpm : (getk mid s.match_moving_averages).isSome := by
      rw [getk_isSome_iff]
      rw [getk_isSome_iff] at hticks
      rw [← hkm]; exact hticks
    obtain ⟨dm', hdm'⟩ := Option.isSome_iff_exists.mp hpd
    obtain ⟨mam₀, hmas⟩ := Option.isSome_iff_exists.mp hpm
    unfold update_moving_averages
    intro mid2 mam' hget metric hm ma' hma'
    dsimp only at hget hma' ⊢
    by_cases he : mid2 = mid
    · subst he
      rw [getk_setk_self] at hget
      cases hget
      rw [getk_setk_self] at hma'
      rw [show (Option.getD (some (updateEach tracked_metrics _
            ((getk mid2 s.match_deltas).getD []))) []) = updateEach tracked_metrics _
            ((getk mid2 s.match_deltas).getD []) from rfl] at hma'
      rw [getk_updateEach tracked_nodup, if_pos hm] at hma'
      rcases hmam : getk metric ((getk mid2 s.match_moving_averages).getD []) with _ | ma
      · rw [hmam] at hma'
        cases hma'
      · rw [hmam] at hma'
        simp only [Option.map_some'] at hma'
        cases hma'
        rw [getk_setk_self]
        rw [show (Option.getD (some (updateEach tracked_metrics _
              ((getk mid2 s.match_deltas).getD []))) []) = updateEach tracked_metrics _
              ((getk mid2 s.match_deltas).getD []) from rfl]
        rw [getk_updateEach tracked_nodup, if_pos hm]
        rw [hdm']
        rw [show (Option.getD (some dm') []) = dm' from rfl]
        rcases h0 : getk metric dm' with _ | dq
        · simp only [Option.map_none', Option.getD_none]
          rw [update_one_average_of_empty]
          have h := havg mid2 mam₀ hmas metric hm ma (by
            rw [hmas] at hmam
            exact hmam)
          rw [hdm'] at h
          simp only [Option.getD_some] at h
          rw [h0] at h
          simpa using h
        · simp only [Option.map_some', Option.getD_some]
          rw [update_one_average_avg (dequeAppend_length_pos (by omega) _ _)]
    · rw [getk_setk_ne he _ _] at hget
      rw [getk_setk_ne he _ _]
      exact havg mid2 mam' hget metric hm ma' hma'

theorem avgOk_with_ticks {s : AnalyzerState} (havg : AvgOk s)
    (tk : List (String × List TickData)) : AvgOk { s with match_ticks := tk } := by
  intro mid mam hget metric hm ma hma
  exact havg mid mam hget metric hm ma hma

theorem avgOk_add_tick {s : AnalyzerState} (hsync : TablesSync s) (havg : AvgOk s)
    (hW : 1 ≤ s.cfg.tick_window_size) (mid : String) (data : StatDict) (now : ℚ) :
    AvgOk ((add_tick s mid data now).2) := by
  have hsync1 := tablesSync_init_match hsync mid
  have havg1 := avgOk_init_match hsync havg mid
  have hW1 : 1 ≤ (init_match s mid).cfg.tick_window_size := by
    rw [cfg_init_match]; exact hW
  unfold add_tick
  dsimp only
  split
  · exact havg1
  · split
    · have h2 : TablesSync
          { init_match s mid with
            match_ticks := setk mid
              (dequeAppend (init_match s mid).cfg.max_ticks_history
                ((getk mid (init_match s mid).match_ticks).getD [])
                (tick_from_data data now))
              (init_match s mid).match_ticks } := by
        refine ⟨⟨?_, ?_⟩, hsync1.2.1, hsync1.2.2⟩
        · show keysOf (setk mid _ (init_match s mid).match_ticks) = _
          rw [keysOf_setk_isSome _ (init_match_isSome s mid)]
          exact hsync1.1.1
        · show keysOf (setk mid _ (init_match s mid).match_ticks) = _
          rw [keysOf_setk_isSome _ (init_match_isSome s mid)]
          exact hsync1.1.2
      have h3 : AvgOk
          { init_match s mid with
            match_ticks := setk mid
              (dequeAppend (init_match s mid).cfg.max_ticks_history
                ((getk mid (init_match s mid).match_ticks).getD [])
                (tick_from_data data now))
              (init_match s mid).match_ticks } := by
        intro mid2 mam hget metric hm ma hma
        exact havg1 mid2 mam hget metric hm ma hma
      have h4 : 1 ≤ ({ init_match s mid with
            match_ticks := setk mid
              (dequeAppend (init_match s mid).cfg.max_ticks_history
                ((getk mid (init_match s mid).match_ticks).getD [])
                (tick_from_data data now))
              (init_match s mid).match_ticks } : AnalyzerState).cfg.tick_window_size := hW1
      exact avgOk_calc_update h2 h3 h4 mid _
    · intro mid2 mam hget metric hm ma hma
      exact havg1 mid2 mam hget metric hm ma hma

theorem avgOk_cleanup_old_matches {s : AnalyzerState} (havg : AvgOk s)
    (now hours_old : ℚ) : AvgOk (cleanup_old_matches s now hours_old) := by
  unfold cleanup_old_matches
  intro mid mam hget metric hm ma hma
  dsimp only at hget ⊢
  rw [getk_popAll] at hget
  split at hget
  · cases hget
  · rename_i hmem
    rw [getk_popAll, if_neg hmem]
    exact havg mid mam hget metric hm ma hma

theorem avgOk_clear_match_data {s : AnalyzerState} (havg : AvgOk s) (mid : String) :
    AvgOk (clear_match_data s mid) := by
  unfold clear_match_data
  intro mid2 mam hget metric hm ma hma
  dsimp only at hget ⊢
  by_cases hpm : (getk mid s.match_moving_averages).isSome
  · rw [if_pos hpm] at hget
    rw [getk_popk] at hget
    split at hget
    · cases hget
    · rename_i hne
      by_cases hpd : (getk mid s.match_deltas).isSome
      · rw [if_pos hpd, getk_popk, if_neg hne]
        exact havg mid2 mam hget metric hm ma hma
      · rw [if_neg hpd]
        exact havg mid2 mam hget metric hm ma hma
  · rw [if_neg hpm] at hget
    by_cases he : mid2 = mid
    · subst he
      exact absurd (by rw [hget]; rfl) hpm
    · by_cases hpd : (getk mid s.match_deltas).isSome
      · rw [if_pos hpd, getk_popk, if_neg he]
        exact havg mid2 mam hget metric hm ma hma
      · rw [if_neg hpd]
        exact havg mid2 mam hget metric hm ma hma

theorem avgOk_applyOp {s : AnalyzerState} (hsync : TablesSync s) (havg : AvgOk s)
    (hW : 1 ≤ s.cfg.tick_window_size) (op : TickOp) : AvgOk (applyOp s op) := by
  cases op with
  | initOp mid => exact avgOk_init_match hsync havg mid
  | tickOp mid data now => exact avgOk_add_tick hsync havg hW mid data now
  | cleanupOp now hrs => exact avgOk_cleanup_old_matches havg now hrs
  | clearOp mid => exact avgOk_clear_match_data havg mid

theorem syncAndAvg_foldl (ops : List TickOp) : ∀ s : AnalyzerState,
    TablesSync s → AvgOk s → 1 ≤ s.cfg.tick_window_size →
    TablesSync (ops.foldl applyOp s) ∧ AvgOk (ops.foldl applyOp s) := by
  induction ops with
  | nil => exact fun s h1 h2 _ => ⟨h1, h2⟩
  | cons op ops ih =>
    intro s h1 h2 hW
    rw [List.foldl_cons]
    exact ih _ (tablesSync_applyOp h1 op) (avgOk_applyOp h1 h2 hW op)
      (by rw [cfg_applyOp]; exact hW)

theorem avgOk_runOps {cfg : TAConfig} (hW : 1 ≤ cfg.tick_window_size)
    (ops : List TickOp) : AvgOk (runOps cfg ops) :=
  (syncAndAvg_foldl ops _ (tablesSync_initial cfg) (avgOk_initial cfg) hW).2

/-! ## Bounds on the derived metrics -/

theorem calculate_shot_quality_nonneg (shots attacks dang : ℕ) :
    0 ≤ calculate_shot_quality shots attacks dang := by
  unfold calculate_shot_quality
  split
  · norm_num
  · dsimp only
    exact le_min (by positivity) (by norm_num)

theorem calculate_shot_quality_le_three (shots attacks dang : ℕ) :
    calculate_shot_quality shots attacks dang ≤ 3 := by
  unfold calculate_shot_quality
  split
  · norm_num
  · exact min_le_right _ _

theorem get_time_modifier_pos (minute : ℕ) : 0 < get_time_modifier minute := by
  unfold get_time_modifier
  split_ifs <;> norm_num

theorem calculate_dxg_nonneg (sh sa ah aa dh da minute : ℕ) :
    0 ≤ (calculate_dxg sh sa ah aa dh da minute).1 ∧
    0 ≤ (calculate_dxg sh sa ah aa dh da minute).2 := by
  unfold calculate_dxg
  dsimp only
  constructor
  · apply pyRound_nonneg
    apply mul_nonneg (mul_nonneg (calculate_shot_quality_nonneg _ _ _)
      (get_time_modifier_pos minute).le)
    positivity
  · apply pyRound_nonneg
    apply mul_nonneg (mul_nonneg (calculate_shot_quality_nonneg _ _ _)
      (get_time_modifier_pos minute).le)
    positivity

theorem coefficient_of_variation_nonneg {values : List ℚ}
    (hv : ∀ x ∈ values, 0 ≤ x) : 0 ≤ coefficient_of_variation values := by
  unfold coefficient_of_variation
  split
  · exact le_refl 0
  · rename_i hlen2
    dsimp only
    split
    · exact le_refl 0
    · apply div_nonneg (Real.sqrt_nonneg _)
      have hsum : 0 ≤ values.sum := List.sum_nonneg hv
      have hlen : (0 : ℚ) < (values.length : ℚ) := by
        have h2 : 2 ≤ values.length := not_lt.mp hlen2
        have h3 : (0 : ℕ) < values.length := by omega
        exact_mod_cast h3
      have hq : (0 : ℚ) ≤ values.sum / (values.length : ℚ) :=
        div_nonneg hsum hlen.le
      exact_mod_cast hq

theorem calculate_stability_bounds (hist : List StatDict) :
    (0 ≤ (calculate_stability hist).1 ∧ (calculate_stability hist).1 ≤ 1) ∧
    (0 ≤ (calculate_stability hist).2 ∧ (calculate_stability hist).2 ≤ 1) := by
  have hv1 : ∀ x ∈ hist.map (fun s => ((s.attacks_home.getD 0 : ℕ) : ℚ)), (0:ℚ) ≤ x := by
    intro x hx
    obtain ⟨a, _, rfl⟩ := List.mem_map.mp hx
    positivity
  have hv2 : ∀ x ∈ hist.map (fun s => ((s.attacks_away.getD 0 : ℕ) : ℚ)), (0:ℚ) ≤ x := by
    intro x hx
    obtain ⟨a, _, rfl⟩ := List.mem_map.mp hx
    positivity
  unfold calculate_stability
  split
  · norm_num
  · dsimp only
    refine ⟨⟨?_, ?_⟩, ?_, ?_⟩
    · exact pyRoundR_nonneg _ (le_max_right _ _)
    · apply pyRoundR_le_one
      apply max_le ?_ (by norm_num)
      have hc := coefficient_of_variation_nonneg hv1
      linarith
    · exact pyRoundR_nonneg _ (le_max_right _ _)
    · apply pyRoundR_le_one
      apply max_le ?_ (by norm_num)
      have hc := coefficient_of_variation_nonneg hv2
      linarith

/-! ## The claims -/

/-- C1 (code bug): MetricsCalculator.calculate_metrics is meant to
substitute defaults for missing raw fields and return a MatchMetrics
without raising, but its final constructor call reads the undefined name
stats (the parameter is current_stats), so every call, for every input,
raises NameError instead of returning a value. -/
theorem calculate_metrics_always_raises (current_stats : StatDict)
    (historical_stats : List StatDict) (minute : ℕ) :
    calculate_metrics current_stats historical_stats minute =
      Except.error "NameError: name stats is not defined" := rfl

/-- C2 counterexample: the claim says the per-side goal-expectancy proxy
is capped at 3.0, but at shots = attacks = dangerous = 20, minute = 90
the home proxy computes to 10.8 > 3: only shot quality is capped. -/
theorem dxg_exceeds_cap_cex :
    (calculate_dxg 20 0 20 0 20 0 90).1 = 54/5 ∧ (3 : ℚ) < 54/5 := by
  constructor
  · decide
  · norm_num

/-- C2 (amended): the goal-expectancy proxy per side is nonnegative and
its shot-quality factor is capped at 3.0, but the final proxy itself is
not bounded by 3; stability per side does lie in [0, 1]. -/
theorem dxg_nonneg_quality_capped_stability_unit
    (sh sa ah aa dh da minute shots attacks dang : ℕ) (hist : List StatDict) :
    0 ≤ (calculate_dxg sh sa ah aa dh da minute).1 ∧
    0 ≤ (calculate_dxg sh sa ah aa dh da minute).2 ∧
    calculate_shot_quality shots attacks dang ≤ 3 ∧
    (0 ≤ (calculate_stability hist).1 ∧ (calculate_stability hist).1 ≤ 1) ∧
    (0 ≤ (calculate_stability hist).2 ∧ (calculate_stability hist).2 ≤ 1) :=
  ⟨(calculate_dxg_nonneg sh sa ah aa dh da minute).1,
   (calculate_dxg_nonneg sh sa ah aa dh da minute).2,
   calculate_shot_quality_le_three shots attacks dang,
   (calculate_stability_bounds hist).1,
   (calculate_stability_bounds hist).2⟩

/-- C3: after any sequence of public analyzer operations, the stored
current_average of every tracked metric of every tracked match equals
exactly the sum (not the mean) of the last window-many recorded deltas
of that metric. -/
theorem current_average_is_sum_of_last_window (cfg : TAConfig) (ops : List TickOp)
    (mid metric : String) (mam : List (String × MovingAverage)) (ma : MovingAverage)
    (hW : 1 ≤ cfg.tick_window_size)
    (hmet : metric ∈ tracked_metrics)
    (hmam : getk mid (runOps cfg ops).match_moving_averages = some mam)
    (hma : getk metric mam = some ma) :
    ma.current_average =
      (takeLast cfg.tick_window_size
        ((((getk metric ((getk mid (runOps cfg ops).match_deltas).getD [])).getD []).map
          TickDelta.delta_value))).sum := by
  have h := avgOk_runOps hW ops mid mam hmam metric hmet ma hma
  rw [cfg_runOps] at h
  rw [pySliceLast_eq_takeLast (by omega)] at h
  rw [takeLast_map]
  exact h

/-- C3 witness: two accepted ticks for one match; the total_attacks
average equals the sum of its stored deltas. -/
theorem current_average_sum_witness :
    getk "total_attacks" wMam = some wMA ∧
    wMA.current_average =
      (takeLast (3 : ℕ)
        ((((getk "total_attacks" ((getk "m" wState.match_deltas).getD [])).getD []).map
          TickDelta.delta_value))).sum := by
  constructor
  · decide
  · exact current_average_is_sum_of_last_window {} wOps "m" "total_attacks" wMam wMA
      (by decide) (by decide) (by decide) (by decide)

/-- C6: a tick arriving before the configured interval has elapsed since
the last accepted tick of its match is rejected: add_tick returns false
and the whole analyzer state is unchanged. -/
theorem add_tick_before_interval_is_noop (s : AnalyzerState) (mid : String)
    (data : StatDict) (now : ℚ) (ticks : List TickData) (last_tick : TickData)
    (hticks : getk mid s.match_ticks = some ticks)
    (hlast : ticks.getLast? = some last_tick)
    (hearly : now - last_tick.timestamp < s.cfg.tick_interval) :
    add_tick s mid data now = (false, s) := by
  have hs1 : init_match s mid = s := init_match_of_isSome (by rw [hticks]; rfl)
  unfold add_tick
  dsimp only
  rw [hs1, hticks]
  simp only [Option.getD_some]
  rw [hlast]
  simp only [decide_eq_true hearly, if_true]

/-- C6 witness: a third tick 30 seconds after the last accepted one is
rejected without any state change. -/
theorem add_tick_too_early_witness : add_tick wState "m" wTickA 130 = (false, wState) :=
  add_tick_before_interval_is_noop wState "m" wTickA 130 wTicks wLastTick
    (by decide) (by decide) (by decide)

/-- C10: after every sequence of public analyzer operations the three
per-match tables hold exactly the same match ids, and every tracked
match has an entry for every tracked metric in both inner tables. -/
theorem tick_tables_stay_in_sync (cfg : TAConfig) (ops : List TickOp) :
    TablesSync (runOps cfg ops) :=
  tablesSync_foldl ops _ (tablesSync_initial cfg)

/-- C4: a pending signal older than the staleness window is force
resolved to LOSS with profit_loss = -stake, after which it is terminal:
neither a further force pass nor an ordinary resolution pass with any
oracle changes a non-pending signal again, so no double penalty. -/
theorem stale_pending_forced_loss_once
    (now now2 hours_old hours_old2 : ℚ) (oracle : Signal → Option SigResult)
    (s : Signal)
    (hpending : s.result = .pending)
    (hold : s.created_at < now - hours_old * 3600) :
    (force_resolve_step now hours_old s).result = .loss ∧
    (force_resolve_step now hours_old s).profit_loss = -s.stake ∧
    force_resolve_step now2 hours_old2 (force_resolve_step now hours_old s) =
      force_resolve_step now hours_old s ∧
    check_pending_step now2 oracle (force_resolve_step now hours_old s) =
      force_resolve_step now hours_old s ∧
    (∀ t : Signal, t.result ≠ .pending →
      force_resolve_step now2 hours_old2 t = t ∧
      check_pending_step now2 oracle t = t) := by
  have hs1 : force_resolve_step now hours_old s =
      { s with result := .loss, profit_loss := -s.stake, resolved_at := some now } := by
    unfold force_resolve_step
    rw [if_pos ⟨hpending, hold⟩]
  have hterm : ∀ t : Signal, t.result ≠ .pending →
      force_resolve_step now2 hours_old2 t = t ∧ check_pending_step now2 oracle t = t := by
    intro t ht
    constructor
    · unfold force_resolve_step
      rw [if_neg (fun hc => ht hc.1)]
    · unfold check_pending_step
      rw [if_neg (fun hc => ht hc.1)]
  have hnp : (force_resolve_step now hours_old s).result ≠ .pending := by
    rw [hs1]
    intro h
    exact SigResult.noConfusion h
  exact ⟨by rw [hs1], by rw [hs1], (hterm _ hnp).1, (hterm _ hnp).2, hterm⟩

/-- C4 witness: a pending signal created at time 0 with stake 1, forced
at time 21601 with the default six-hour window, becomes a loss with
profit -1, and both resolution passes leave it unchanged afterwards. -/
theorem stale_pending_forced_loss_once_witness :
    (force_resolve_step 21601 6 sigC4).result = .loss ∧
    (force_resolve_step 21601 6 sigC4).profit_loss = -sigC4.stake ∧
    force_resolve_step 50000 6 (force_resolve_step 21601 6 sigC4) =
      force_resolve_step 21601 6 sigC4 ∧
    check_pending_step 50000 (fun _ => none) (force_resolve_step 21601 6 sigC4) =
      force_resolve_step 21601 6 sigC4 := by
  obtain ⟨h1, h2, h3, h4, _⟩ :=
    stale_pending_forced_loss_once 21601 50000 6 6 (fun _ => none) sigC4 rfl (by decide)
  exact ⟨h1, h2, h3, h4⟩

/-- C5 counterexample: profit_loss is rounded to two decimal places, so
a WIN with odds 2.5 and stake 1.005 stores 1.51 and not the exact
(odds - 1) * stake = 1.5075 the claim asserts. -/
theorem profit_loss_rounding_cex :
    calculate_profit_loss sigC5 .win = 151/100 ∧
    (151/100 : ℚ) ≠ (5/2 - 1) * (201/200) := by
  constructor
  · decide
  · norm_num

/-- C5 (amended): profit_loss equals (odds - 1) * stake on WIN, -stake
on LOSS and 0 on PUSH after rounding to two decimals, hence exactly
those values whenever they are integer multiples of 0.01 — as with odds
2.0 and stake 1.0; odds and stake are never mutated by a resolution
pass. -/
theorem profit_loss_formula_rounded (s : Signal) (o : ℚ) (m k : ℤ)
    (hodds : s.odds = some o) (hoz : o ≠ 0)
    (hm : (o - 1) * s.stake * 10 ^ 2 = (m : ℚ))
    (hk : s.stake * 10 ^ 2 = (k : ℚ)) :
    calculate_profit_loss s .win = (o - 1) * s.stake ∧
    calculate_profit_loss s .loss = -s.stake ∧
    calculate_profit_loss s .push = 0 ∧
    (∀ (now hours_old : ℚ) (oracle : Signal → Option SigResult),
      (force_resolve_step now hours_old s).stake = s.stake ∧
      (force_resolve_step now hours_old s).odds = s.odds ∧
      (check_pending_step now oracle s).stake = s.stake ∧
      (check_pending_step now oracle s).odds = s.odds) := by
  refine ⟨?_, ?_, ?_, ?_⟩
  · unfold calculate_profit_loss
    rw [hodds]
    dsimp only
    rw [if_neg hoz]
    exact pyRound_eq_of_int 2 _ m hm
  · unfold calculate_profit_loss
    rw [hodds]
    dsimp only
    exact pyRound_eq_of_int 2 _ (-k) (by push_cast; linarith)
  · unfold calculate_profit_loss
    rw [hodds]
    dsimp only
    rw [pyRound_eq_of_int 2 0 0 (by norm_num)]
  · intro now hours_old oracle
    refine ⟨?_, ?_, ?_, ?_⟩
    · unfold force_resolve_step
      dsimp only
      split <;> rfl
    · unfold force_resolve_step
      dsimp only
      split <;> rfl
    · unfold check_pending_step
      split
      · cases oracle s <;> rfl
      · rfl
    · unfold check_pending_step
      split
      · cases oracle s <;> rfl
      · rfl

/-- C5 witness: odds 2.0 and stake 1.0 yield exactly 1.0 on WIN, -1.0
on LOSS and 0.0 on PUSH. -/
theorem profit_loss_formula_witness :
    calculate_profit_loss sigC5b .win = 1 ∧
    calculate_profit_loss sigC5b .loss = -1 ∧
    calculate_profit_loss sigC5b .push = 0 := by
  obtain ⟨h1, h2, h3, _⟩ :=
    profit_loss_formula_rounded sigC5b 2 100 100 rfl (by norm_num) (by decide) (by decide)
  exact ⟨h1.trans (by decide), h2.trans (by decide), h3⟩

/-- C7 counterexample: the detector flags a momentum gain on last
deltas [-2, -2, -1] even though the third delta is negative, so the
flagged move is not in the positive direction at all. -/
theorem momentum_gain_without_positive_delta_cex :
    momentum_shift_for "total_attacks" maGainCex =
      some ⟨"momentum_gain", "total_attacks", 1, 1⟩ ∧ (-1 : ℚ) < 0 := by
  constructor
  · decide
  · norm_num

/-- C7 (amended): with the confidence gate passed and a full
three-delta window [d1, d2, d3], the detector flags a gain exactly when
d1 < 0, d2 < 0 and d3 > 1.5 * d2 (the third delta need not be positive),
and flags a loss exactly when d1 > 0, d2 > 0 and d3 < 0.5 * d2 (the
factor is 0.5, not a mirrored 1.5 pattern). -/
theorem momentum_shift_characterization (metric : String) (ma : MovingAverage)
    (d1 d2 d3 : ℚ) (hconf : ¬ ma.confidence < 0.7)
    (hh : ma.deltas_history = [d1, d2, d3]) :
    (momentum_shift_for metric ma =
        some ⟨"momentum_gain", metric, |d3|, ma.confidence⟩ ↔
      (d1 < 0 ∧ d2 < 0 ∧ d2 * 1.5 < d3)) ∧
    (momentum_shift_for metric ma =
        some ⟨"momentum_loss", metric, |d3 - d2|, ma.confidence⟩ ↔
      (0 < d1 ∧ 0 < d2 ∧ d3 < d2 * 0.5)) := by
  unfold momentum_shift_for
  rw [if_neg hconf, hh]
  rw [if_pos (by simp : 3 ≤ ([d1, d2, d3] : List ℚ).length)]
  dsimp only
  rw [show ([d1, d2, d3] : List ℚ).getD (([d1, d2, d3] : List ℚ).length - 3) 0 = d1 from rfl]
  rw [show ([d1, d2, d3] : List ℚ).getD (([d1, d2, d3] : List ℚ).length - 2) 0 = d2 from rfl]
  rw [show ([d1, d2, d3] : List ℚ).getD (([d1, d2, d3] : List ℚ).length - 1) 0 = d3 from rfl]
  constructor
  · split_ifs with hP hQ
    · exact iff_of_true rfl hP
    · refine iff_of_false (fun h => ?_) hP
      simp only [Option.some.injEq, MomentumShift.mk.injEq] at h
      exact absurd h.1 (by decide)
    · exact iff_of_false (by simp) hP
  · split_ifs with hP hQ
    · refine iff_of_false (fun h => ?_) (fun hpos => absurd hpos.1 (asymm hP.1))
      simp only [Option.some.injEq, MomentumShift.mk.injEq] at h
      exact absurd h.1 (by decide)
    · exact iff_of_true rfl hQ
    · exact iff_of_false (by simp) hQ

/-- C7 witness: last deltas [-2, -2, 4] with full confidence are
flagged as a momentum gain. -/
theorem momentum_shift_gain_witness :
    momentum_shift_for "total_shots" maGainPos =
      some ⟨"momentum_gain", "total_shots", |(4 : ℚ)|, maGainPos.confidence⟩ :=
  (momentum_shift_characterization "total_shots" maGainPos (-2) (-2) 4
    (by decide) rfl).1.mpr (by norm_num)

/-- C8: every signal returned by analyze_all_strategies has confidence
strictly above the global 0.5 floor, and analyze_next_goal_away emits
nothing whenever its accumulated condition score is below its
threshold, no matter how extreme the individual metric values are. -/
theorem signal_confidence_floor_and_gate :
    (∀ (config : StratConfig) (metrics : MatchMetrics) (match_data : StatDict)
        (minute : ℕ) (r : SignalResult),
      r ∈ analyze_all_strategies config metrics match_data minute →
      (0.5 : ℚ) < r.confidence) ∧
    (∀ (config : StratConfig) (metrics : MatchMetrics) (match_data : StatDict)
        (minute : ℕ),
      next_goal_away_score metrics < (config "next_goal_away" "threshold").getD 0.7 →
      analyze_next_goal_away config metrics match_data minute = none) := by
  constructor
  · intro config metrics match_data minute r hr
    unfold analyze_all_strategies at hr
    exact of_decide_eq_true (List.mem_filter.mp hr).2
  · intro config metrics match_data minute h
    unfold analyze_next_goal_away
    dsimp only
    rw [if_neg (not_le.mpr h)]

/-- C8 witness: metrics with a strong dxg spike produce exactly one
emitted signal, whose confidence 0.9 is above the floor; metrics with a
zero condition score produce no next-goal-away signal. -/
theorem signal_confidence_floor_witness :
    sigOver ∈ analyze_all_strategies cfgNone mOver {} 30 ∧
    (0.5 : ℚ) < sigOver.confidence ∧
    analyze_next_goal_away cfgNone mZero {} 30 = none :=
  ⟨by decide,
   signal_confidence_floor_and_gate.1 cfgNone mOver {} 30 sigOver (by decide),
   signal_confidence_floor_and_gate.2 cfgNone mZero {} 30 (by decide)⟩

/-- C9: with no stored statistics for a strategy the predictor returns
the input confidence unchanged together with the no-historical-data
explanation, and with statistics present the returned confidence is
clamped to [0.1, 0.95]. -/
theorem no_history_identity_and_clamp
    (strategy_stats : List (String × StrategyStats)) (strategy_name : String)
    (trigger_metrics : List (String × ℚ)) (confidence : ℚ) (minute : ℕ)
    (threshold : ℚ) :
    (getk strategy_name strategy_stats = none →
      predict_signal_success strategy_stats strategy_name trigger_metrics
        confidence minute threshold = (confidence, "No historical data available")) ∧
    (∀ st, getk strategy_name strategy_stats = some st →
      (0.1 : ℚ) ≤ (predict_signal_success strategy_stats strategy_name
          trigger_metrics confidence minute threshold).1 ∧
        (predict_signal_success strategy_stats strategy_name trigger_metrics
          confidence minute threshold).1 ≤ 0.95) := by
  constructor
  · intro h
    unfold predict_signal_success
    rw [h]
  · intro st h
    unfold predict_signal_success
    rw [h]
    dsimp only
    exact ⟨le_max_left _ _, max_le (by norm_num) (min_le_left _ _)⟩

/-- C9 witness: the empty stats table returns confidence 0.3 unchanged
with the no-data explanation; a populated table clamps an adjusted
confidence into [0.1, 0.95]. -/
theorem no_history_identity_witness :
    predict_signal_success [] "dxg_spike" [] (3/10) 50 (1/10) =
      (3/10, "No historical data available") ∧
    (0.1 : ℚ) ≤ (predict_signal_success [("dxg_spike", statsW)] "dxg_spike" []
        2 50 (1/10)).1 ∧
    (predict_signal_success [("dxg_spike", statsW)] "dxg_spike" [] 2 50 (1/10)).1 ≤ 0.95 := by
  refine ⟨(no_history_identity_and_clamp [] "dxg_spike" [] (3/10) 50 (1/10)).1 rfl, ?_, ?_⟩
  · exact ((no_history_identity_and_clamp [("dxg_spike", statsW)] "dxg_spike" []
      2 50 (1/10)).2 statsW (by decide)).1
  · exact ((no_history_identity_and_clamp [("dxg_spike", statsW)] "dxg_spike" []
      2 50 (1/10)).2 statsW (by decide)).2

end BetBog
